import Mathlib

/-!
# Schema discovery and type mapping of the Cloud Spanner adapter

A shallow embedding of `connection.go` and `datasource.go` (package `spanner`
of go-tamate/tamate-spanner).

Modelling conventions.

* A Go `string` is a Lean `String`; `strings.HasPrefix` is list-prefix on the
  characters (all patterns of the program are ASCII).
* A Go `error` is an `Option GoError` (`none` is the nil error).  A Go result
  pair `(v, err)` is a Lean pair, so that statements such as "a nil value with
  a nil error" can be written down.  Pointers that may be nil are `Option`.
* The Go `int` type is 64 bits wide.
* The Cloud Spanner client is a function from the SQL text of a statement to
  the row iterator it returns.  A row iterator is the finite list of the
  results of its successive `Next` calls; the end of the list is
  `iterator.Done`.
* A Go map is an association list with distinct keys, kept in insertion order;
  the order in which a `range` statement visits it is left unspecified and is
  given by a `MapOrder`.
* A method whose effect on its handle matters (`Close`, `SetSchema`,
  `SetRows`) returns an `Outcome`: its result, the handle after the call and
  the calls it made on the session client.
* A Go slice is a list; the nil slice is the empty list.
-/

namespace TamateSpanner

/-! ## Types of the `driver` package -/

/-- The canonical column types `driver.ColumnType`. -/
inductive ColumnType
  | Null
  | String
  | Int
  | Float
  | Datetime
  | Date
  | Bytes
  | Bool
  | StringArray
  | BytesArray
  | FloatArray
  | IntArray
  | DateArray
  | DatetimeArray
  | BoolArray
  deriving DecidableEq, Repr

/-- The key kinds `driver.KeyType`; the zero value is `Primary`. -/
inductive KeyType
  | Primary
  | Unique
  | Index
  deriving DecidableEq, Repr

/-- The struct `driver.Column`; the field `Type` is written `Type_`. -/
structure Column where
  Name : String
  OrdinalPosition : Int
  Type_ : ColumnType
  NotNull : Bool
  AutoIncrement : Bool
  deriving DecidableEq, Repr

/-- The struct `driver.Key`. -/
structure Key where
  KeyType : KeyType
  ColumnNames : List String
  deriving DecidableEq, Repr

/-- The struct `driver.Schema`; `Columns` is a slice of pointers. -/
structure Schema where
  Name : String
  PrimaryKey : Option Key
  Columns : List (Option Column)
  deriving DecidableEq, Repr

/-- A non-nil Go `error` value. -/
inductive GoError
  /-- An error made by `errors.New`, or by `fmt.Errorf` without `%w`. -/
  | errorsNew (msg : String)
  /-- An error value handed out by the Cloud Spanner client. -/
  | client (detail : String)
  deriving DecidableEq, Repr

/-! ## The type mapping -/

/-- The function `strings.HasPrefix`. -/
def HasPrefix (s pre : String) : Bool :=
  pre.data.isPrefixOf s.data

/-- The function `spannerTypeNameToColumnType` of `connection.go`. -/
def spannerTypeNameToColumnType (st : String) : ColumnType × Option GoError :=
  if st = "INT64" then
    (ColumnType.Int, none)
  else if st = "FLOAT64" then
    (ColumnType.Float, none)
  else if st = "TIMESTAMP" then
    (ColumnType.Datetime, none)
  else if st = "DATE" then
    (ColumnType.Date, none)
  else if st = "BOOL" then
    (ColumnType.Bool, none)
  else if HasPrefix st "STRING" then
    (ColumnType.String, none)
  else if HasPrefix st "BYTES" then
    (ColumnType.Bytes, none)
  else if HasPrefix st "ARRAY<STRING" then
    (ColumnType.StringArray, none)
  else if HasPrefix st "ARRAY<BYTES" then
    (ColumnType.BytesArray, none)
  else if HasPrefix st "ARRAY<DATE" then
    (ColumnType.DateArray, none)
  else if HasPrefix st "ARRAY<FLOAT64" then
    (ColumnType.FloatArray, none)
  else if HasPrefix st "ARRAY<INT64" then
    (ColumnType.IntArray, none)
  else if HasPrefix st "ARRAY<TIMESTAMP" then
    (ColumnType.DatetimeArray, none)
  else if HasPrefix st "ARRAY<BOOL" then
    (ColumnType.BoolArray, none)
  else
    (ColumnType.Null, some (GoError.errorsNew ("cannot convert spanner type: " ++ st)))

/-! ## Rows, iterators and the client -/

/-- A column value of a result row of the catalog queries. -/
inductive Value
  | null
  | string (s : String)
  | int64 (i : Int)
  deriving DecidableEq, Repr

/-- A `spanner.Row`: the fields of a result row, each a name and a value, in
select-list order. -/
abbrev Row := List (String × Value)

/-- Decoding of a column value into a Go `string` variable. -/
def decodeString : Value → Except GoError String
  | Value.string s => Except.ok s
  | Value.null => Except.error (GoError.client "cannot decode NULL into string")
  | Value.int64 _ => Except.error (GoError.client "cannot decode INT64 into string")

/-- Decoding of a column value into a Go `int64` variable. -/
def decodeInt64 : Value → Except GoError Int
  | Value.int64 i => Except.ok i
  | Value.null => Except.error (GoError.client "cannot decode NULL into int64")
  | Value.string _ => Except.error (GoError.client "cannot decode STRING into int64")

/-- The method `Row.ColumnByName(name, &s)` with `s` a `string` variable: the
row must have exactly one field of that name, and its value must decode. -/
def Row.ColumnByName (r : Row) (name : String) : Except GoError String :=
  match r.filter (fun f => f.1 == name) with
  | [] => Except.error (GoError.client ("column not found: " ++ name))
  | [f] => decodeString f.2
  | _ :: _ :: _ => Except.error (GoError.client ("duplicate column name: " ++ name))

/-- The method `Row.Columns(&tableName, &columnName, &ordinalPosition,
&columnType, &isNullable)` with four `string` variables and one `int64`
variable: the row must have five fields and each must decode, in order. -/
def Row.Columns (r : Row) : Except GoError (String × String × Int × String × String) :=
  match r with
  | [a, b, c, d, e] =>
    match decodeString a.2 with
    | Except.error err => Except.error err
    | Except.ok tableName =>
      match decodeString b.2 with
      | Except.error err => Except.error err
      | Except.ok columnName =>
        match decodeInt64 c.2 with
        | Except.error err => Except.error err
        | Except.ok ordinalPosition =>
          match decodeString d.2 with
          | Except.error err => Except.error err
          | Except.ok columnType =>
            match decodeString e.2 with
            | Except.error err => Except.error err
            | Except.ok isNullable =>
              Except.ok (tableName, columnName, ordinalPosition, columnType, isNullable)
  | _ => Except.error (GoError.client "wrong number of destinations")

/-- The results of the successive `Next` calls on a `spanner.RowIterator`;
the end of the list is `iterator.Done`. -/
abbrev RowIterator := List (Except GoError Row)

/-- The session client: `spannerClient.Single().Query(ctx, stmt)` as a function
of the SQL text of `stmt`. -/
abbrev Client := String → RowIterator

/-- The conversion `int(x)` of an `int64` value `x`. -/
def toInt (x : Int) : Int :=
  (x + 2 ^ 63) % 2 ^ 64 - 2 ^ 63

/-! ## Go maps -/

/-- The type `map[string]*driver.Schema`. -/
abbrev SchemaMap := List (String × Schema)

/-- The map write `m[k] = v`. -/
def mapSet : SchemaMap → String → Schema → SchemaMap
  | [], k, v => [(k, v)]
  | (k0, v0) :: rest, k, v =>
    if k0 = k then (k, v) :: rest else (k0, v0) :: mapSet rest k v

/-- A field update through the pointer `m[k]`. -/
def mapUpdate (m : SchemaMap) (k : String) (f : Schema → Schema) : SchemaMap :=
  m.map (fun e => if e.1 = k then (e.1, f e.2) else e)

/-- The order in which a `range` statement visits the entries of a map. -/
structure MapOrder where
  order : SchemaMap → SchemaMap
  perm : ∀ m, (order m).Perm m

/-! ## Schema discovery -/

/-- The function `ScanSchemaColumn` of `connection.go`. -/
def ScanSchemaColumn (row : Row) : Option Column × Option GoError :=
  match row.Columns with
  | Except.error err => (none, some err)
  | Except.ok (_, columnName, ordinalPosition, columnType, isNullable) =>
    match spannerTypeNameToColumnType columnType with
    | (_, some err) => (none, some err)
    | (ct, none) =>
      (some
        { Name := columnName
          OrdinalPosition := toInt ordinalPosition
          Type_ := ct
          NotNull := decide (isNullable = "NO")
          AutoIncrement := false },
       none)

/-- The SQL text of the column-catalog query. -/
def columnsSQL : String :=
  "SELECT TABLE_NAME, COLUMN_NAME, ORDINAL_POSITION, SPANNER_TYPE, IS_NULLABLE FROM INFORMATION_SCHEMA.COLUMNS WHERE TABLE_SCHEMA = ''"

/-- The SQL text of the primary-key query of a table, built by `fmt.Sprintf`. -/
def primaryKeySQL (tableName : String) : String :=
  "SELECT COLUMN_NAME FROM INFORMATION_SCHEMA.INDEX_COLUMNS WHERE TABLE_NAME = '" ++ tableName ++
    "' AND INDEX_TYPE = 'PRIMARY_KEY' ORDER BY ORDINAL_POSITION ASC"

/-- The statements of `createAllSchemaMap` that enter a scanned column into the
map: `if _, ok := schemaMap[tableName]; !ok { schemaMap[tableName] =
&driver.Schema{Name: tableName} }` followed by the append to
`schemaMap[tableName].Columns`. -/
def addColumn (schemaMap : SchemaMap) (tableName : String) (column : Option Column) : SchemaMap :=
  let m1 :=
    if (schemaMap.lookup tableName).isSome then schemaMap
    else mapSet schemaMap tableName { Name := tableName, PrimaryKey := none, Columns := [] }
  mapUpdate m1 tableName (fun s => { s with Columns := s.Columns ++ [column] })

/-- The first loop of `createAllSchemaMap`: `Except.error err` is the early
`return nil, err`, `Except.ok m` is the map at the `break`. -/
def scanLoop : RowIterator → SchemaMap → Except GoError SchemaMap
  | [], schemaMap => Except.ok schemaMap
  | Except.error err :: _, _ => Except.error err
  | Except.ok row :: rest, schemaMap =>
    match row.ColumnByName "TABLE_NAME" with
    | Except.error err => Except.error err
    | Except.ok tableName =>
      match ScanSchemaColumn row with
      | (_, some err) => Except.error err
      | (column, none) => scanLoop rest (addColumn schemaMap tableName column)

/-- The loop of `getPrimaryKey`: `Except.error err` is the early
`return nil, err`, `Except.ok pk` is the value of `pk` at the `break`. -/
def primaryKeyLoop : RowIterator → Option Key → Except GoError (Option Key)
  | [], pk => Except.ok pk
  | Except.error err :: _, _ => Except.error err
  | Except.ok row :: rest, pk =>
    let pk1 : Key :=
      match pk with
      | none => { KeyType := KeyType.Primary, ColumnNames := [] }
      | some k => k
    match row.ColumnByName "COLUMN_NAME" with
    | Except.error err => Except.error err
    | Except.ok colName =>
      primaryKeyLoop rest
        (some { KeyType := KeyType.Primary, ColumnNames := pk1.ColumnNames ++ [colName] })

/-- The method `getPrimaryKey` of `connection.go`. -/
def getPrimaryKey (c : Client) (tableName : String) : Option Key × Option GoError :=
  match primaryKeyLoop (c (primaryKeySQL tableName)) none with
  | Except.error err => (none, some err)
  | Except.ok pk => (pk, none)

/-- The second loop of `createAllSchemaMap`, over the entries in the order the
`range` statement visits them. -/
def primaryKeyPass (c : Client) : List (String × Schema) → SchemaMap → Except GoError SchemaMap
  | [], schemaMap => Except.ok schemaMap
  | (tableName, _) :: rest, schemaMap =>
    match getPrimaryKey c tableName with
    | (_, some err) => Except.error err
    | (pk, none) =>
      primaryKeyPass c rest (mapUpdate schemaMap tableName (fun s => { s with PrimaryKey := pk }))

/-- The method `createAllSchemaMap` of `connection.go`. -/
def createAllSchemaMap (c : Client) (ro : MapOrder) : Option SchemaMap × Option GoError :=
  match scanLoop (c columnsSQL) [] with
  | Except.error err => (none, some err)
  | Except.ok schemaMap =>
    match primaryKeyPass c (ro.order schemaMap) schemaMap with
    | Except.error err => (none, some err)
    | Except.ok m => (some m, none)

/-- The method `GetSchema` of `connection.go`; `ro` orders the `range` inside
`createAllSchemaMap` and `ro2` the `range` of `GetSchema` itself (a `range`
over a nil map visits nothing). -/
def GetSchema (c : Client) (ro ro2 : MapOrder) (name : String) : Option Schema × Option GoError :=
  match createAllSchemaMap c ro with
  | (_, some err) => (none, some err)
  | (all, none) =>
    match (ro2.order (all.getD [])).find? (fun e => e.1 == name) with
    | some e => (some e.2, none)
    | none => (none, some (GoError.errorsNew ("Schema not found: " ++ name)))

/-- The catalog row `(tableName, columnName, ordinalPosition, nativeType,
isNullable)` as the column-catalog query returns it. -/
def catalogRow (tableName columnName : String) (ordinalPosition : Int)
    (nativeType isNullable : String) : Row :=
  [("TABLE_NAME", Value.string tableName), ("COLUMN_NAME", Value.string columnName),
   ("ORDINAL_POSITION", Value.int64 ordinalPosition), ("SPANNER_TYPE", Value.string nativeType),
   ("IS_NULLABLE", Value.string isNullable)]

/-- The table name a row of the column catalog is filed under, when its
`TABLE_NAME` field decodes. -/
def rowTable (r : Row) : Option String :=
  (r.ColumnByName "TABLE_NAME").toOption

/-- The rows of a list that are filed under table `t`, in their order. -/
def rowsOfTable (t : String) (rows : List Row) : List Row :=
  rows.filter (fun r => rowTable r == some t)

/-- The columns that `ScanSchemaColumn` builds from the rows filed under table
`t`, in the order of the rows. -/
def columnsOfTable (t : String) (rows : List Row) : List (Option Column) :=
  (rowsOfTable t rows).map (fun r => (ScanSchemaColumn r).1)

/-- The error on which the first loop of `createAllSchemaMap` returns when it
reads row `r`: the error of `row.ColumnByName("TABLE_NAME", &tableName)` or
else the error of `ScanSchemaColumn(row)`; `none` when the row is taken. -/
def rowError (r : Row) : Option GoError :=
  match r.ColumnByName "TABLE_NAME" with
  | Except.error err => some err
  | Except.ok _ => (ScanSchemaColumn r).2

/-- The table names that occur in a list of rows of the column catalog. -/
def tableNames (rows : List Row) : List String :=
  rows.filterMap rowTable

/-- The keys of a map. -/
def keys (m : SchemaMap) : List String :=
  m.map Prod.fst

/-- The row `(columnName)` as the primary-key query returns it. -/
def indexRow (columnName : String) : Row :=
  [("COLUMN_NAME", Value.string columnName)]

/-- The `range` order that visits a map in insertion order. -/
def insertionOrder : MapOrder :=
  ⟨fun m => m, fun m => List.Perm.refl m⟩

/-- The `range` order that visits a map in reverse insertion order. -/
def reverseOrder : MapOrder :=
  ⟨fun m => m.reverse, fun m => List.reverse_perm m⟩

/-! ## Row retrieval -/

/-- The struct `driver.Row`; this package never builds one. -/
structure DriverRow where
  Values : List (String × Value)
  deriving DecidableEq, Repr

/-- The SQL text of the data query of a table, built by `fmt.Sprintf`. -/
def rowsSQL (name : String) : String :=
  "SELECT * FROM `" ++ name ++ "`"

/-- The loop of `GetRows`: `Except.error err` is the early `return nil, err`,
`Except.ok rows` is the value of `rows` at the `break`.  The body that would
append to `rows` is commented out in the source, so a row that is read leaves
`rows` as it is. -/
def getRowsLoop : RowIterator → List DriverRow → Except GoError (List DriverRow)
  | [], rows => Except.ok rows
  | Except.error err :: _, _ => Except.error err
  | Except.ok _ :: rest, rows => getRowsLoop rest rows

/-- The method `GetRows` of `connection.go`; a slice is a list and the nil
slice is the empty list. -/
def GetRows (c : Client) (name : String) : List DriverRow × Option GoError :=
  match getRowsLoop (c (rowsSQL name)) [] with
  | Except.error err => ([], some err)
  | Except.ok rows => (rows, none)

/-! ## The connection handle -/

/-- The struct `spannerConn`; `spannerClient` is a pointer and may be nil. -/
structure spannerConn where
  DSN : String
  spannerClient : Option Client

/-- A call that a method makes on the session client of its handle. -/
inductive ClientCall
  | query (sql : String)
  | close
  deriving DecidableEq, Repr

/-- What a method call on a handle leaves behind: the value it returns, the
handle after the call, and the calls it made on the session client, in
order. -/
structure Outcome (α : Type) where
  result : α
  conn : spannerConn
  calls : List ClientCall

/-- The method `Close` of `connection.go`. -/
def Close (c : spannerConn) : Outcome (Option GoError) :=
  if c.spannerClient.isSome then
    { result := none, conn := c, calls := [ClientCall.close] }
  else
    { result := none, conn := c, calls := [] }

/-- The method `SetSchema` of `connection.go`. -/
def SetSchema (c : spannerConn) (_name : String) (_schema : Option Schema) :
    Outcome (Option GoError) :=
  { result := some (GoError.errorsNew "not implemented"), conn := c, calls := [] }

/-- The method `SetRows` of `connection.go`. -/
def SetRows (c : spannerConn) (_name : String) (_rows : List DriverRow) :
    Outcome (Option GoError) :=
  { result := some (GoError.errorsNew "SpannerDatasource does not support SetRows()")
    conn := c
    calls := [] }

/-- The results, the final handle and the client calls of `n` consecutive
calls of `Close` on a handle. -/
def closeTimes : Nat → spannerConn → List (Option GoError) × spannerConn × List ClientCall
  | 0, c => ([], c, [])
  | n + 1, c =>
    let o := Close c
    let r := closeTimes n o.conn
    (o.result :: r.1, r.2.1, o.calls ++ r.2.2)

/-- The method `Open` of `datasource.go`; `NewClient` is `spanner.NewClient` as
a function of the connection descriptor. -/
def Open (NewClient : String → Option Client × Option GoError) (dsn : String) :
    Option spannerConn × Option GoError :=
  match NewClient dsn with
  | (_, some err) => (none, some err)
  | (spannerClient, none) => (some { DSN := dsn, spannerClient := spannerClient }, none)

/-! ## The checks of the type mapping as a list -/

/-- One check of `spannerTypeNameToColumnType` with the type it returns:
`st == s` or `strings.HasPrefix(st, s)`. -/
inductive Check
  | exact (s : String) (ty : ColumnType)
  | startsWith (s : String) (ty : ColumnType)
  deriving DecidableEq, Repr

/-- Whether a check holds of a string. -/
def Check.holds : Check → String → Bool
  | Check.exact s _, st => decide (st = s)
  | Check.startsWith s _, st => HasPrefix st s

/-- The type a check returns. -/
def Check.result : Check → ColumnType
  | Check.exact _ ty => ty
  | Check.startsWith _ ty => ty

/-- The string a check compares with. -/
def Check.pattern : Check → String
  | Check.exact s _ => s
  | Check.startsWith s _ => s

/-- The fourteen checks of `spannerTypeNameToColumnType`, in source order. -/
def checks : List Check :=
  [Check.exact "INT64" ColumnType.Int,
   Check.exact "FLOAT64" ColumnType.Float,
   Check.exact "TIMESTAMP" ColumnType.Datetime,
   Check.exact "DATE" ColumnType.Date,
   Check.exact "BOOL" ColumnType.Bool,
   Check.startsWith "STRING" ColumnType.String,
   Check.startsWith "BYTES" ColumnType.Bytes,
   Check.startsWith "ARRAY<STRING" ColumnType.StringArray,
   Check.startsWith "ARRAY<BYTES" ColumnType.BytesArray,
   Check.startsWith "ARRAY<DATE" ColumnType.DateArray,
   Check.startsWith "ARRAY<FLOAT64" ColumnType.FloatArray,
   Check.startsWith "ARRAY<INT64" ColumnType.IntArray,
   Check.startsWith "ARRAY<TIMESTAMP" ColumnType.DatetimeArray,
   Check.startsWith "ARRAY<BOOL" ColumnType.BoolArray]

/-- The type mapping with its checks applied in the order of the list `l`:
the first check that holds decides, and no check gives the failure. -/
def applyChecks (l : List Check) (st : String) : ColumnType × Option GoError :=
  match l.find? (fun k => k.holds st) with
  | some k => (k.result, none)
  | none => (ColumnType.Null, some (GoError.errorsNew ("cannot convert spanner type: " ++ st)))

/-! ## Notions used in the statements -/

/-- An entry of the column catalog: the five values the column-catalog query
selects. -/
structure CatalogEntry where
  tableName : String
  columnName : String
  ordinalPosition : Int
  nativeType : String
  isNullable : String
  deriving DecidableEq, Repr

/-- The result row of a catalog entry. -/
def CatalogEntry.row (x : CatalogEntry) : Row :=
  catalogRow x.tableName x.columnName x.ordinalPosition x.nativeType x.isNullable

/-- The ordinal positions of the columns of a schema, along its `Columns`. -/
def ordinalPositions (sc : Schema) : List Int :=
  sc.Columns.filterMap (fun col => col.map Column.OrdinalPosition)

/-- The names of the columns of a schema, along its `Columns`. -/
def columnNames (sc : Schema) : List String :=
  sc.Columns.filterMap (fun col => col.map Column.Name)

/-- The primary-key column names of a schema, none when the key is nil. -/
def primaryKeyNames (sc : Schema) : List String :=
  match sc.PrimaryKey with
  | none => []
  | some pk => pk.ColumnNames

/-! ## Sample catalogs -/

/-- A catalog with tables `T (id INT64 NOT NULL, name STRING(MAX))`, primary
key `id`, and `U (x BOOL NOT NULL)` without primary key; the rows of the two
tables are interleaved. -/
def demoClient : Client := fun sql =>
  if sql = columnsSQL then
    [Except.ok (catalogRow "T" "id" 1 "INT64" "NO"),
     Except.ok (catalogRow "U" "x" 1 "BOOL" "NO"),
     Except.ok (catalogRow "T" "name" 2 "STRING(MAX)" "YES")]
  else if sql = primaryKeySQL "T" then [Except.ok (indexRow "id")]
  else []

/-- The rows of the column catalog of `demoClient`. -/
def demoRows : List Row :=
  [catalogRow "T" "id" 1 "INT64" "NO", catalogRow "U" "x" 1 "BOOL" "NO",
   catalogRow "T" "name" 2 "STRING(MAX)" "YES"]

/-- The entries of the column catalog of `demoClient`. -/
def demoEntries : List CatalogEntry :=
  [⟨"T", "id", 1, "INT64", "NO"⟩, ⟨"U", "x", 1, "BOOL", "NO"⟩,
   ⟨"T", "name", 2, "STRING(MAX)", "YES"⟩]

/-- The schema of table `T` of `demoClient`. -/
def demoSchemaT : Schema :=
  { Name := "T"
    PrimaryKey := some { KeyType := KeyType.Primary, ColumnNames := ["id"] }
    Columns :=
      [some { Name := "id", OrdinalPosition := 1, Type_ := ColumnType.Int, NotNull := true,
              AutoIncrement := false },
       some { Name := "name", OrdinalPosition := 2, Type_ := ColumnType.String, NotNull := false,
              AutoIncrement := false }] }

/-- The map that discovery returns on `demoClient`. -/
def demoMap : SchemaMap :=
  [("T", demoSchemaT),
   ("U",
    { Name := "U"
      PrimaryKey := none
      Columns :=
        [some { Name := "x", OrdinalPosition := 1, Type_ := ColumnType.Bool, NotNull := true,
                AutoIncrement := false }] })]

/-- A catalog whose column query streams the two columns of table `T` with
the second ordinal position first. -/
def unorderedEntries : List CatalogEntry :=
  [⟨"T", "b", 2, "INT64", "NO"⟩, ⟨"T", "a", 1, "INT64", "NO"⟩]

/-- The client of the catalog `unorderedEntries`; no table has a primary key. -/
def unorderedClient : Client := fun sql =>
  if sql = columnsSQL then unorderedEntries.map (fun x => Except.ok x.row) else []

/-- The schema of table `T` that discovery returns on `unorderedClient`. -/
def unorderedSchemaT : Schema :=
  { Name := "T"
    PrimaryKey := none
    Columns :=
      [some { Name := "b", OrdinalPosition := 2, Type_ := ColumnType.Int, NotNull := true,
              AutoIncrement := false },
       some { Name := "a", OrdinalPosition := 1, Type_ := ColumnType.Int, NotNull := true,
              AutoIncrement := false }] }

/-- A client whose column query fails after one row. -/
def brokenClient : Client := fun sql =>
  if sql = columnsSQL then
    [Except.ok (catalogRow "T" "id" 1 "INT64" "NO"), Except.error (GoError.client "unavailable")]
  else []

/-- A client whose data query of table `T` streams one row to completion. -/
def rowsClient : Client := fun sql =>
  if sql = rowsSQL "T" then [Except.ok [("id", Value.int64 7)]] else []

/-- A catalog in which the primary-key query of `T` names a column that the
column query does not list. -/
def ghostKeyClient : Client := fun sql =>
  if sql = columnsSQL then [Except.ok (catalogRow "T" "id" 1 "INT64" "NO")]
  else if sql = primaryKeySQL "T" then [Except.ok (indexRow "ghost")]
  else []

/-- The schema of table `T` that discovery returns on `ghostKeyClient`. -/
def ghostSchemaT : Schema :=
  { Name := "T"
    PrimaryKey := some { KeyType := KeyType.Primary, ColumnNames := ["ghost"] }
    Columns :=
      [some { Name := "id", OrdinalPosition := 1, Type_ := ColumnType.Int, NotNull := true,
              AutoIncrement := false }] }

/-- A catalog with a table `T` of recognised types and a table `U` with a
column of the native type `JSON`. -/
def jsonEntries : List CatalogEntry :=
  [⟨"T", "id", 1, "INT64", "NO"⟩, ⟨"U", "doc", 1, "JSON", "YES"⟩]

/-- The client of the catalog `jsonEntries`. -/
def jsonClient : Client := fun sql =>
  if sql = columnsSQL then jsonEntries.map (fun x => Except.ok x.row) else []

/-- A handle that was opened on `demoClient`. -/
def openedConn : spannerConn :=
  { DSN := "projects/p/instances/i/databases/d", spannerClient := some demoClient }

/-- A handle whose session client was never opened. -/
def neverOpenedConn : spannerConn :=
  { DSN := "", spannerClient := none }

/-- A `spanner.NewClient` that fails on the empty descriptor and otherwise
returns `demoClient`. -/
def demoNewClient : String → Option Client × Option GoError := fun dsn =>
  if dsn = "" then (none, some (GoError.client "invalid database name"))
  else (some demoClient, none)

/-! ## Facts about the type mapping -/

theorem hasPrefix_iff (s pre : String) : HasPrefix s pre = true ↔ ∃ t : String, s = pre ++ t := by
  unfold HasPrefix
  rw [List.isPrefixOf_iff_prefix]
  constructor
  · rintro ⟨t, ht⟩
    exact ⟨⟨t⟩, String.ext (by simp [ht])⟩
  · rintro ⟨t, rfl⟩
    exact ⟨t.data, by simp⟩

theorem append_eq_iff_data (p s q : String) : p ++ s = q ↔ p.data ++ s.data = q.data := by
  rw [String.ext_iff]; simp

theorem hasPrefix_append_data (p q s : String) :
    HasPrefix (p ++ s) q = q.data.isPrefixOf (p.data ++ s.data) := by
  simp [HasPrefix]

/-- C1: the five scalar types come from exact, case-sensitive matches: the
mapping succeeds with int exactly on "INT64", with float exactly on "FLOAT64",
with datetime exactly on "TIMESTAMP", with date exactly on "DATE" and with bool
exactly on "BOOL". -/
theorem typeName_exact_match (st : String) :
    (spannerTypeNameToColumnType st = (ColumnType.Int, none) ↔ st = "INT64") ∧
    (spannerTypeNameToColumnType st = (ColumnType.Float, none) ↔ st = "FLOAT64") ∧
    (spannerTypeNameToColumnType st = (ColumnType.Datetime, none) ↔ st = "TIMESTAMP") ∧
    (spannerTypeNameToColumnType st = (ColumnType.Date, none) ↔ st = "DATE") ∧
    (spannerTypeNameToColumnType st = (ColumnType.Bool, none) ↔ st = "BOOL") := by
  by_cases h1 : st = "INT64"
  · subst h1; decide
  by_cases h2 : st = "FLOAT64"
  · subst h2; decide
  by_cases h3 : st = "TIMESTAMP"
  · subst h3; decide
  by_cases h4 : st = "DATE"
  · subst h4; decide
  by_cases h5 : st = "BOOL"
  · subst h5; decide
  unfold spannerTypeNameToColumnType
  simp only [if_neg h1, if_neg h2, if_neg h3, if_neg h4, if_neg h5, iff_false]
  split_ifs <;> simp
  all_goals exact ⟨h1, h2, h3, h4, h5⟩

theorem typeName_of_not_exact (st : String) (h1 : st ≠ "INT64") (h2 : st ≠ "FLOAT64")
    (h3 : st ≠ "TIMESTAMP") (h4 : st ≠ "DATE") (h5 : st ≠ "BOOL") :
    spannerTypeNameToColumnType st =
      if HasPrefix st "STRING" then (ColumnType.String, none)
      else if HasPrefix st "BYTES" then (ColumnType.Bytes, none)
      else if HasPrefix st "ARRAY<STRING" then (ColumnType.StringArray, none)
      else if HasPrefix st "ARRAY<BYTES" then (ColumnType.BytesArray, none)
      else if HasPrefix st "ARRAY<DATE" then (ColumnType.DateArray, none)
      else if HasPrefix st "ARRAY<FLOAT64" then (ColumnType.FloatArray, none)
      else if HasPrefix st "ARRAY<INT64" then (ColumnType.IntArray, none)
      else if HasPrefix st "ARRAY<TIMESTAMP" then (ColumnType.DatetimeArray, none)
      else if HasPrefix st "ARRAY<BOOL" then (ColumnType.BoolArray, none)
      else (ColumnType.Null, some (GoError.errorsNew ("cannot convert spanner type: " ++ st))) := by
  unfold spannerTypeNameToColumnType
  simp only [if_neg h1, if_neg h2, if_neg h3, if_neg h4, if_neg h5]

theorem typeName_string_start (s : String) :
    spannerTypeNameToColumnType ("STRING" ++ s) = (ColumnType.String, none) := by
  unfold spannerTypeNameToColumnType
  simp [append_eq_iff_data, hasPrefix_append_data, List.isPrefixOf]

theorem typeName_bytes_start (s : String) :
    spannerTypeNameToColumnType ("BYTES" ++ s) = (ColumnType.Bytes, none) := by
  unfold spannerTypeNameToColumnType
  simp [append_eq_iff_data, hasPrefix_append_data, List.isPrefixOf]

theorem typeName_fst_string (st : String) (h : (spannerTypeNameToColumnType st).1 = ColumnType.String) :
    HasPrefix st "STRING" = true := by
  by_cases h1 : st = "INT64"
  · subst h1; revert h; decide
  by_cases h2 : st = "FLOAT64"
  · subst h2; revert h; decide
  by_cases h3 : st = "TIMESTAMP"
  · subst h3; revert h; decide
  by_cases h4 : st = "DATE"
  · subst h4; revert h; decide
  by_cases h5 : st = "BOOL"
  · subst h5; revert h; decide
  rw [typeName_of_not_exact st h1 h2 h3 h4 h5] at h
  by_contra hp
  rw [if_neg hp] at h
  revert h
  split_ifs <;> simp

theorem typeName_fst_bytes (st : String) (h : (spannerTypeNameToColumnType st).1 = ColumnType.Bytes) :
    HasPrefix st "BYTES" = true := by
  by_cases h1 : st = "INT64"
  · subst h1; revert h; decide
  by_cases h2 : st = "FLOAT64"
  · subst h2; revert h; decide
  by_cases h3 : st = "TIMESTAMP"
  · subst h3; revert h; decide
  by_cases h4 : st = "DATE"
  · subst h4; revert h; decide
  by_cases h5 : st = "BOOL"
  · subst h5; revert h; decide
  rw [typeName_of_not_exact st h1 h2 h3 h4 h5] at h
  by_contra hp
  revert h
  split_ifs <;> simp

/-- C2: every string that begins with "STRING" maps to the string type and
every string that begins with "BYTES" maps to the bytes type, both as a
success and whatever the suffix is; conversely the string type is returned only
for inputs that begin with "STRING" and the bytes type only for inputs that
begin with "BYTES". -/
theorem typeName_string_bytes :
    (∀ s : String, spannerTypeNameToColumnType ("STRING" ++ s) = (ColumnType.String, none)) ∧
    (∀ s : String, spannerTypeNameToColumnType ("BYTES" ++ s) = (ColumnType.Bytes, none)) ∧
    spannerTypeNameToColumnType "STRING(MAX)" = (ColumnType.String, none) ∧
    spannerTypeNameToColumnType "STRING(255)" = (ColumnType.String, none) ∧
    spannerTypeNameToColumnType "BYTES(1024)" = (ColumnType.Bytes, none) ∧
    spannerTypeNameToColumnType "STRING" = (ColumnType.String, none) ∧
    spannerTypeNameToColumnType "BYTES" = (ColumnType.Bytes, none) ∧
    (∀ st : String, (spannerTypeNameToColumnType st).1 = ColumnType.String ↔
      ∃ s : String, st = "STRING" ++ s) ∧
    (∀ st : String, (spannerTypeNameToColumnType st).1 = ColumnType.Bytes ↔
      ∃ s : String, st = "BYTES" ++ s) := by
  refine ⟨typeName_string_start, typeName_bytes_start, by decide, by decide, by decide,
    by decide, by decide, fun st => ⟨fun h => ?_, ?_⟩, fun st => ⟨fun h => ?_, ?_⟩⟩
  · exact (hasPrefix_iff _ _).1 (typeName_fst_string st h)
  · rintro ⟨s, rfl⟩
    rw [typeName_string_start]
  · exact (hasPrefix_iff _ _).1 (typeName_fst_bytes st h)
  · rintro ⟨s, rfl⟩
    rw [typeName_bytes_start]

theorem typeName_array_string (s : String) :
    spannerTypeNameToColumnType ("ARRAY<STRING" ++ s) = (ColumnType.StringArray, none) := by
  unfold spannerTypeNameToColumnType
  simp [append_eq_iff_data, hasPrefix_append_data, List.isPrefixOf]

theorem typeName_array_bytes (s : String) :
    spannerTypeNameToColumnType ("ARRAY<BYTES" ++ s) = (ColumnType.BytesArray, none) := by
  unfold spannerTypeNameToColumnType
  simp [append_eq_iff_data, hasPrefix_append_data, List.isPrefixOf]

theorem typeName_array_date (s : String) :
    spannerTypeNameToColumnType ("ARRAY<DATE" ++ s) = (ColumnType.DateArray, none) := by
  unfold spannerTypeNameToColumnType
  simp [append_eq_iff_data, hasPrefix_append_data, List.isPrefixOf]

theorem typeName_array_float64 (s : String) :
    spannerTypeNameToColumnType ("ARRAY<FLOAT64" ++ s) = (ColumnType.FloatArray, none) := by
  unfold spannerTypeNameToColumnType
  simp [append_eq_iff_data, hasPrefix_append_data, List.isPrefixOf]

theorem typeName_array_int64 (s : String) :
    spannerTypeNameToColumnType ("ARRAY<INT64" ++ s) = (ColumnType.IntArray, none) := by
  unfold spannerTypeNameToColumnType
  simp [append_eq_iff_data, hasPrefix_append_data, List.isPrefixOf]

theorem typeName_array_timestamp (s : String) :
    spannerTypeNameToColumnType ("ARRAY<TIMESTAMP" ++ s) = (ColumnType.DatetimeArray, none) := by
  unfold spannerTypeNameToColumnType
  simp [append_eq_iff_data, hasPrefix_append_data, List.isPrefixOf]

theorem typeName_array_bool (s : String) :
    spannerTypeNameToColumnType ("ARRAY<BOOL" ++ s) = (ColumnType.BoolArray, none) := by
  unfold spannerTypeNameToColumnType
  simp [append_eq_iff_data, hasPrefix_append_data, List.isPrefixOf]

/-- C3: every string that begins with one of the seven "ARRAY<..." patterns
maps, as a success, to the array type of that pattern, whatever follows the
pattern; "ARRAY<INT64>" gives int-array and "ARRAY<STRING(MAX)>" gives
string-array. -/
theorem typeName_array_start (s : String) :
    spannerTypeNameToColumnType ("ARRAY<STRING" ++ s) = (ColumnType.StringArray, none) ∧
    spannerTypeNameToColumnType ("ARRAY<BYTES" ++ s) = (ColumnType.BytesArray, none) ∧
    spannerTypeNameToColumnType ("ARRAY<DATE" ++ s) = (ColumnType.DateArray, none) ∧
    spannerTypeNameToColumnType ("ARRAY<FLOAT64" ++ s) = (ColumnType.FloatArray, none) ∧
    spannerTypeNameToColumnType ("ARRAY<INT64" ++ s) = (ColumnType.IntArray, none) ∧
    spannerTypeNameToColumnType ("ARRAY<TIMESTAMP" ++ s) = (ColumnType.DatetimeArray, none) ∧
    spannerTypeNameToColumnType ("ARRAY<BOOL" ++ s) = (ColumnType.BoolArray, none) ∧
    spannerTypeNameToColumnType "ARRAY<INT64>" = (ColumnType.IntArray, none) ∧
    spannerTypeNameToColumnType "ARRAY<STRING(MAX)>" = (ColumnType.StringArray, none) :=
  ⟨typeName_array_string s, typeName_array_bytes s, typeName_array_date s,
    typeName_array_float64 s, typeName_array_int64 s, typeName_array_timestamp s,
    typeName_array_bool s, by decide, by decide⟩

theorem typeName_never_null_ok (st : String) :
    spannerTypeNameToColumnType st ≠ (ColumnType.Null, none) := by
  by_cases h1 : st = "INT64"
  · subst h1; decide
  by_cases h2 : st = "FLOAT64"
  · subst h2; decide
  by_cases h3 : st = "TIMESTAMP"
  · subst h3; decide
  by_cases h4 : st = "DATE"
  · subst h4; decide
  by_cases h5 : st = "BOOL"
  · subst h5; decide
  rw [typeName_of_not_exact st h1 h2 h3 h4 h5]
  split_ifs <;> simp

/-- C4: a string that is none of the five exact names and has none of the nine
prefixes (the empty string is one) makes the mapping fail: the result is the
null type together with an error whose message ends with the string itself,
unchanged.  Under the same hypothesis or not, the null type never comes with a
nil error. -/
theorem typeName_unrecognised (st : String)
    (h : st ≠ "INT64" ∧ st ≠ "FLOAT64" ∧ st ≠ "TIMESTAMP" ∧ st ≠ "DATE" ∧ st ≠ "BOOL" ∧
      HasPrefix st "STRING" = false ∧ HasPrefix st "BYTES" = false ∧
      HasPrefix st "ARRAY<STRING" = false ∧ HasPrefix st "ARRAY<BYTES" = false ∧
      HasPrefix st "ARRAY<DATE" = false ∧ HasPrefix st "ARRAY<FLOAT64" = false ∧
      HasPrefix st "ARRAY<INT64" = false ∧ HasPrefix st "ARRAY<TIMESTAMP" = false ∧
      HasPrefix st "ARRAY<BOOL" = false) :
    spannerTypeNameToColumnType st =
      (ColumnType.Null, some (GoError.errorsNew ("cannot convert spanner type: " ++ st))) ∧
    ∀ st2 : String, spannerTypeNameToColumnType st2 ≠ (ColumnType.Null, none) := by
  obtain ⟨h1, h2, h3, h4, h5, p1, p2, p3, p4, p5, p6, p7, p8, p9⟩ := h
  constructor
  · rw [typeName_of_not_exact st h1 h2 h3 h4 h5]
    simp [p1, p2, p3, p4, p5, p6, p7, p8, p9]
  · exact typeName_never_null_ok

/-- Witness of C4 at the empty string. -/
theorem typeName_unrecognised_witness :
    spannerTypeNameToColumnType "" =
      (ColumnType.Null, some (GoError.errorsNew ("cannot convert spanner type: " ++ ""))) ∧
    ∀ st2 : String, spannerTypeNameToColumnType st2 ≠ (ColumnType.Null, none) :=
  typeName_unrecognised "" (by decide)

/-! ## Facts about maps -/

theorem lookup_cons_eq (k0 : String) (v0 : Schema) (rest : SchemaMap) (t : String) :
    List.lookup t ((k0, v0) :: rest) = if t = k0 then some v0 else List.lookup t rest := by
  by_cases h : t = k0
  · subst h; simp [List.lookup]
  · have : (t == k0) = false := by simpa using h
    simp [List.lookup, this, h]

theorem lookup_mapSet (m : SchemaMap) (k t : String) (v : Schema) :
    (mapSet m k v).lookup t = if t = k then some v else m.lookup t := by
  induction m with
  | nil =>
    show List.lookup t ((k, v) :: ([] : SchemaMap)) = _
    rw [lookup_cons_eq]
  | cons e rest ih =>
    obtain ⟨k0, v0⟩ := e
    by_cases h0 : k0 = k
    · subst h0
      simp only [mapSet, if_pos, lookup_cons_eq]
      split_ifs <;> rfl
    · simp only [mapSet, if_neg h0, lookup_cons_eq, ih]
      by_cases h : t = k
      · subst h
        have : t ≠ k0 := fun h => h0 h.symm
        simp [this]
      · simp [h]

theorem lookup_mapUpdate (m : SchemaMap) (k t : String) (f : Schema → Schema) :
    (mapUpdate m k f).lookup t = if t = k then (m.lookup t).map f else m.lookup t := by
  induction m with
  | nil => simp [mapUpdate]
  | cons e rest ih =>
    obtain ⟨k0, v0⟩ := e
    unfold mapUpdate at ih ⊢
    by_cases h0 : k0 = k
    · subst h0
      simp only [List.map_cons, if_pos, lookup_cons_eq, ih]
      by_cases h : t = k0 <;> simp [h]
    · simp only [List.map_cons, if_neg h0, lookup_cons_eq, ih]
      by_cases h1 : t = k0
      · subst h1
        simp [h0]
      · simp [h1]

theorem keys_mapUpdate (m : SchemaMap) (k : String) (f : Schema → Schema) :
    keys (mapUpdate m k f) = keys m := by
  unfold keys mapUpdate
  rw [List.map_map]
  apply List.map_congr_left
  intro e _
  by_cases h : e.1 = k <;> simp [h]

theorem lookup_isSome_iff (m : SchemaMap) (t : String) :
    (m.lookup t).isSome = true ↔ t ∈ keys m := by
  induction m with
  | nil => simp [keys]
  | cons e rest ih =>
    obtain ⟨k0, v0⟩ := e
    by_cases h : t = k0
    · subst h; simp [lookup_cons_eq, keys]
    · simp only [lookup_cons_eq, if_neg h, ih]
      simp [keys, h]

theorem lookup_eq_none_iff (m : SchemaMap) (t : String) :
    m.lookup t = none ↔ t ∉ keys m := by
  rw [← lookup_isSome_iff]
  cases m.lookup t <;> simp

theorem keys_mapSet_of_not_mem (m : SchemaMap) (k : String) (v : Schema) (h : k ∉ keys m) :
    keys (mapSet m k v) = keys m ++ [k] := by
  induction m with
  | nil => simp [mapSet, keys]
  | cons e rest ih =>
    obtain ⟨k0, v0⟩ := e
    have h0 : k0 ≠ k := by
      intro h1; apply h; simp [keys, h1]
    have h2 : k ∉ keys rest := by
      intro h1; apply h; simp only [keys, List.map_cons, List.mem_cons]; right; exact h1
    have := ih h2
    simp only [keys] at this ⊢
    simp [mapSet, h0, this]

theorem keys_addColumn (m : SchemaMap) (t : String) (col : Option Column) :
    keys (addColumn m t col) = if t ∈ keys m then keys m else keys m ++ [t] := by
  unfold addColumn
  simp only [keys_mapUpdate]
  by_cases h : t ∈ keys m
  · simp [h, (lookup_isSome_iff m t).2 h]
  · have : (m.lookup t).isSome = false := by
      rw [← Bool.not_eq_true, lookup_isSome_iff]; exact h
    simp [h, this, keys_mapSet_of_not_mem m t _ h]

theorem lookup_addColumn (m : SchemaMap) (t t2 : String) (col : Option Column) :
    (addColumn m t col).lookup t2 =
      if t2 = t then
        some (match m.lookup t with
          | some s => { s with Columns := s.Columns ++ [col] }
          | none => { Name := t, PrimaryKey := none, Columns := [col] })
      else m.lookup t2 := by
  unfold addColumn
  simp only [lookup_mapUpdate]
  by_cases h : t2 = t
  · subst h
    cases hm : m.lookup t2 with
    | none => simp [lookup_mapSet]
    | some s => simp [hm]
  · simp only [if_neg h]
    cases hm : m.lookup t with
    | none => simp [lookup_mapSet, h]
    | some s => simp

theorem lookup_eq_some_of_mem (m : SchemaMap) (hn : (keys m).Nodup) (k : String) (v : Schema)
    (h : (k, v) ∈ m) : m.lookup k = some v := by
  induction m with
  | nil => simp at h
  | cons e rest ih =>
    obtain ⟨k0, v0⟩ := e
    simp only [keys, List.map_cons, List.nodup_cons] at hn
    rcases List.mem_cons.1 h with h1 | h1
    · injection h1 with h2 h3
      subst h2; subst h3
      simp [lookup_cons_eq]
    · have hk : k ≠ k0 := by
        intro hk; subst hk
        exact hn.1 (List.mem_map_of_mem Prod.fst h1)
      simp only [lookup_cons_eq, if_neg hk]
      exact ih hn.2 h1

theorem mem_of_lookup_eq_some (m : SchemaMap) (k : String) (v : Schema)
    (h : m.lookup k = some v) : (k, v) ∈ m := by
  induction m with
  | nil => simp at h
  | cons e rest ih =>
    obtain ⟨k0, v0⟩ := e
    by_cases hk : k = k0
    · subst hk
      simp [lookup_cons_eq] at h
      simp [h]
    · simp only [lookup_cons_eq, if_neg hk] at h
      exact List.mem_cons_of_mem _ (ih h)

/-! ## Facts about the first loop -/

theorem rowError_eq_none (r : Row) (h : rowError r = none) :
    ∃ t, r.ColumnByName "TABLE_NAME" = Except.ok t ∧ rowTable r = some t ∧
      (ScanSchemaColumn r).2 = none := by
  unfold rowError at h
  unfold rowTable
  cases hc : r.ColumnByName "TABLE_NAME" with
  | error e => simp [hc] at h
  | ok t =>
    rw [hc] at h
    exact ⟨t, rfl, rfl, h⟩

theorem scanLoop_step (r : Row) (rest : RowIterator) (m : SchemaMap) (t : String)
    (ht : r.ColumnByName "TABLE_NAME" = Except.ok t) (hs : (ScanSchemaColumn r).2 = none) :
    scanLoop (Except.ok r :: rest) m = scanLoop rest (addColumn m t (ScanSchemaColumn r).1) := by
  rcases hsc : ScanSchemaColumn r with ⟨col, e⟩
  rw [hsc] at hs
  simp only at hs
  subst hs
  simp only [scanLoop, ht, hsc]

theorem scanLoop_fail (r : Row) (rest : RowIterator) (m : SchemaMap) (e : GoError)
    (h : rowError r = some e) : scanLoop (Except.ok r :: rest) m = Except.error e := by
  unfold rowError at h
  cases hc : r.ColumnByName "TABLE_NAME" with
  | error e0 =>
    rw [hc] at h
    simp only [Option.some.injEq] at h
    subst h
    simp only [scanLoop, hc]
  | ok t =>
    rw [hc] at h
    rcases hsc : ScanSchemaColumn r with ⟨col, e1⟩
    rw [hsc] at h
    simp only at h
    subst h
    simp only [scanLoop, hc, hsc]

theorem rowsOfTable_cons_same (t : String) (r : Row) (rows : List Row) (h : rowTable r = some t) :
    rowsOfTable t (r :: rows) = r :: rowsOfTable t rows := by
  simp [rowsOfTable, List.filter_cons, h]

theorem rowsOfTable_cons_other (t t0 : String) (r : Row) (rows : List Row)
    (h : rowTable r = some t0) (hne : t ≠ t0) :
    rowsOfTable t (r :: rows) = rowsOfTable t rows := by
  have : t0 ≠ t := fun h => hne h.symm
  simp [rowsOfTable, List.filter_cons, h, this]

theorem rowsOfTable_eq_nil_iff (t : String) (rows : List Row) :
    rowsOfTable t rows = [] ↔ ¬ ∃ r ∈ rows, rowTable r = some t := by
  simp [rowsOfTable, List.filter_eq_nil_iff]

/-- The effect of the first loop on a run of rows that are all taken. -/
theorem scanLoop_rows (rows : List Row) (hrows : ∀ r ∈ rows, rowError r = none) (m : SchemaMap)
    (hm : (keys m).Nodup) :
    ∃ m2 : SchemaMap,
      (∀ tail, scanLoop (rows.map Except.ok ++ tail) m = scanLoop tail m2) ∧
      (keys m2).Nodup ∧
      (∀ t, t ∈ keys m2 ↔ t ∈ keys m ∨ ∃ r ∈ rows, rowTable r = some t) ∧
      ∀ t, m2.lookup t =
        match m.lookup t with
        | some s => some { s with Columns := s.Columns ++ columnsOfTable t rows }
        | none =>
          if rowsOfTable t rows = [] then none
          else some { Name := t, PrimaryKey := none, Columns := columnsOfTable t rows } := by
  induction rows generalizing m with
  | nil =>
    refine ⟨m, fun tail => rfl, hm, fun t => by simp, fun t => ?_⟩
    cases m.lookup t <;> simp [columnsOfTable, rowsOfTable]
  | cons r rows ih =>
    obtain ⟨t0, hc, ht0, hs⟩ := rowError_eq_none r (hrows r (List.mem_cons_self _ _))
    have hm1 : (keys (addColumn m t0 (ScanSchemaColumn r).1)).Nodup := by
      rw [keys_addColumn]
      by_cases h : t0 ∈ keys m
      · simpa [h] using hm
      · simp only [if_neg h]
        exact List.Nodup.append hm (List.nodup_singleton _) (by simpa using h)
    obtain ⟨m2, htail, hnd, hkeys, hlook⟩ :=
      ih (fun r hr => hrows r (List.mem_cons_of_mem _ hr)) (addColumn m t0 (ScanSchemaColumn r).1) hm1
    refine ⟨m2, fun tail => ?_, hnd, fun t => ?_, fun t => ?_⟩
    · rw [List.map_cons, List.cons_append, scanLoop_step r _ m t0 hc hs]
      exact htail tail
    · have hk : t ∈ keys (addColumn m t0 (ScanSchemaColumn r).1) ↔ t ∈ keys m ∨ t = t0 := by
        rw [keys_addColumn]
        by_cases h : t0 ∈ keys m
        · simp only [if_pos h]
          constructor
          · exact Or.inl
          · rintro (h1 | h1)
            · exact h1
            · rw [h1]; exact h
        · simp [h]
      have hr : (∃ r2 ∈ r :: rows, rowTable r2 = some t) ↔
          t = t0 ∨ ∃ r2 ∈ rows, rowTable r2 = some t := by
        simp only [List.mem_cons, exists_eq_or_imp, ht0, Option.some.injEq]
        constructor
        · rintro (h1 | h1)
          · exact Or.inl h1.symm
          · exact Or.inr h1
        · rintro (h1 | h1)
          · exact Or.inl h1.symm
          · exact Or.inr h1
      rw [hkeys t, hk, hr, or_assoc]
    · rw [hlook t, lookup_addColumn]
      by_cases h : t = t0
      · subst h
        simp only [if_pos, columnsOfTable, rowsOfTable_cons_same t r rows ht0, List.map_cons]
        cases hm0 : m.lookup t with
        | none => simp
        | some s => simp
      · simp only [if_neg h, columnsOfTable, rowsOfTable_cons_other t t0 r rows ht0 h]

/-- A first loop that reaches its `break` has read only rows that it takes. -/
theorem scanLoop_ok_inv (s : RowIterator) (m m2 : SchemaMap) (h : scanLoop s m = Except.ok m2) :
    ∃ rows : List Row, s = rows.map Except.ok ∧ ∀ r ∈ rows, rowError r = none := by
  induction s generalizing m with
  | nil => exact ⟨[], rfl, by simp⟩
  | cons x rest ih =>
    cases x with
    | error e => simp [scanLoop] at h
    | ok r =>
      cases hre : rowError r with
      | some e =>
        rw [scanLoop_fail r rest m e hre] at h
        cases h
      | none =>
        obtain ⟨t0, hc, _, hs⟩ := rowError_eq_none r hre
        rw [scanLoop_step r rest m t0 hc hs] at h
        obtain ⟨rows, hrows, hall⟩ := ih _ h
        refine ⟨r :: rows, by simp [hrows], ?_⟩
        intro r2 hr2
        rcases List.mem_cons.1 hr2 with h1 | h1
        · subst h1; exact hre
        · exact hall r2 h1

/-! ## Facts about the primary-key pass -/

theorem primaryKeyLoop_step (r : Row) (rest : RowIterator) (pk : Option Key) (n : String)
    (hr : r.ColumnByName "COLUMN_NAME" = Except.ok n) :
    primaryKeyLoop (Except.ok r :: rest) pk =
      primaryKeyLoop rest
        (some
          { KeyType := KeyType.Primary
            ColumnNames := (match pk with | none => [] | some k => k.ColumnNames) ++ [n] }) := by
  cases pk <;> simp only [primaryKeyLoop, hr]

/-- The effect of the loop of `getPrimaryKey` on a run of rows whose
`COLUMN_NAME` fields decode to `names`. -/
theorem primaryKeyLoop_names (rows : List Row) (names : List String)
    (h : rows.map (fun r => r.ColumnByName "COLUMN_NAME") = names.map Except.ok)
    (pk : Option Key) (tail : RowIterator) :
    primaryKeyLoop (rows.map Except.ok ++ tail) pk =
      primaryKeyLoop tail
        (if names = [] then pk
         else some
          { KeyType := KeyType.Primary
            ColumnNames := (match pk with | none => [] | some k => k.ColumnNames) ++ names }) := by
  induction rows generalizing names pk with
  | nil =>
    cases names with
    | nil => simp
    | cons n ns => simp at h
  | cons r rows ih =>
    cases names with
    | nil => simp at h
    | cons n ns =>
      simp only [List.map_cons, List.cons.injEq] at h
      obtain ⟨hr, hrest⟩ := h
      rw [List.map_cons, List.cons_append, primaryKeyLoop_step r _ pk n hr, ih ns hrest]
      cases pk with
      | none => by_cases hns : ns = [] <;> simp [hns]
      | some k => by_cases hns : ns = [] <;> simp [hns]

theorem getPrimaryKey_shape (c : Client) (t : String) :
    (∃ pk, getPrimaryKey c t = (pk, none)) ∨ ∃ e, getPrimaryKey c t = (none, some e) := by
  unfold getPrimaryKey
  cases primaryKeyLoop (c (primaryKeySQL t)) none with
  | error e => exact Or.inr ⟨e, rfl⟩
  | ok pk => exact Or.inl ⟨pk, rfl⟩

theorem getPrimaryKey_of_snd_none (c : Client) (t : String) (h : (getPrimaryKey c t).2 = none) :
    getPrimaryKey c t = ((getPrimaryKey c t).1, none) := by
  rw [← h]

/-- The effect of the second loop when every primary-key query it issues
succeeds: each visited entry gets the key of its table. -/
theorem primaryKeyPass_ok (c : Client) (l : List (String × Schema)) (m : SchemaMap)
    (h : ∀ e ∈ l, (getPrimaryKey c e.1).2 = none) :
    ∃ m2 : SchemaMap, primaryKeyPass c l m = Except.ok m2 ∧ keys m2 = keys m ∧
      ∀ t, m2.lookup t =
        (m.lookup t).map (fun s =>
          if t ∈ keys l then { s with PrimaryKey := (getPrimaryKey c t).1 } else s) := by
  induction l generalizing m with
  | nil =>
    refine ⟨m, rfl, rfl, fun t => ?_⟩
    cases m.lookup t <;> simp [keys]
  | cons e l ih =>
    obtain ⟨t0, s0⟩ := e
    have h0 : (getPrimaryKey c t0).2 = none := h (t0, s0) (List.mem_cons_self _ _)
    obtain ⟨m2, hpass, hkeys, hlook⟩ :=
      ih (mapUpdate m t0 (fun s => { s with PrimaryKey := (getPrimaryKey c t0).1 }))
        (fun e he => h e (List.mem_cons_of_mem _ he))
    refine ⟨m2, ?_, ?_, fun t => ?_⟩
    · rw [primaryKeyPass, getPrimaryKey_of_snd_none c t0 h0]
      exact hpass
    · rw [hkeys, keys_mapUpdate]
    · rw [hlook t, lookup_mapUpdate]
      by_cases ht : t = t0
      · subst ht
        cases m.lookup t with
        | none => simp
        | some s => by_cases hl : t ∈ keys l <;> simp [hl, keys]
      · have hiff : t ∈ keys ((t0, s0) :: l) ↔ t ∈ keys l := by simp [keys, ht]
        rw [if_neg ht]
        cases m.lookup t with
        | none => rfl
        | some s =>
          simp only [Option.map_some']
          by_cases hl : t ∈ keys l
          · rw [if_pos hl, if_pos (hiff.2 hl)]
          · rw [if_neg hl, if_neg (fun h => hl (hiff.1 h))]

/-- A second loop that runs to its end has issued only successful queries. -/
theorem primaryKeyPass_ok_inv (c : Client) (l : List (String × Schema)) (m m2 : SchemaMap)
    (h : primaryKeyPass c l m = Except.ok m2) : ∀ e ∈ l, (getPrimaryKey c e.1).2 = none := by
  induction l generalizing m with
  | nil => simp
  | cons e l ih =>
    obtain ⟨t0, s0⟩ := e
    rcases getPrimaryKey_shape c t0 with ⟨pk, hpk⟩ | ⟨err, hpk⟩
    · rw [primaryKeyPass, hpk] at h
      intro e he
      rcases List.mem_cons.1 he with h1 | h1
      · subst h1; simp [hpk]
      · exact ih _ h e h1
    · rw [primaryKeyPass, hpk] at h
      cases h

/-- A second loop that meets a failing primary-key query returns the error of
the first failing query in visiting order. -/
theorem primaryKeyPass_err (c : Client) (l : List (String × Schema)) (m : SchemaMap)
    (h : ∃ e ∈ l, (getPrimaryKey c e.1).2 ≠ none) :
    ∃ t ∈ keys l, ∃ err, getPrimaryKey c t = (none, some err) ∧
      primaryKeyPass c l m = Except.error err := by
  induction l generalizing m with
  | nil => simp at h
  | cons e l ih =>
    obtain ⟨t0, s0⟩ := e
    rcases getPrimaryKey_shape c t0 with ⟨pk, hpk⟩ | ⟨err, hpk⟩
    · have h2 : ∃ e ∈ l, (getPrimaryKey c e.1).2 ≠ none := by
        obtain ⟨e, he, hne⟩ := h
        rcases List.mem_cons.1 he with h1 | h1
        · subst h1; simp [hpk] at hne
        · exact ⟨e, h1, hne⟩
      obtain ⟨t, ht, err, hg, hp⟩ := ih _ h2
      refine ⟨t, ?_, err, hg, ?_⟩
      · simp only [keys, List.map_cons, List.mem_cons]; exact Or.inr ht
      · rw [primaryKeyPass, hpk]; exact hp
    · refine ⟨t0, by simp [keys], err, hpk, ?_⟩
      rw [primaryKeyPass, hpk]

/-! ## Facts about discovery -/

theorem keys_mem_of_perm (l m : SchemaMap) (hp : l.Perm m) (t : String) :
    t ∈ keys l ↔ t ∈ keys m :=
  (hp.map Prod.fst).mem_iff

/-- What a successful discovery pass returns, in terms of the two catalog
queries. -/
theorem createAllSchemaMap_ok (c : Client) (ro : MapOrder) (m : SchemaMap)
    (h : createAllSchemaMap c ro = (some m, none)) :
    ∃ rows : List Row, c columnsSQL = rows.map Except.ok ∧ (∀ r ∈ rows, rowError r = none) ∧
      (keys m).Nodup ∧
      (∀ t, t ∈ keys m ↔ ∃ r ∈ rows, rowTable r = some t) ∧
      (∀ t ∈ keys m, (getPrimaryKey c t).2 = none) ∧
      ∀ t, m.lookup t =
        if rowsOfTable t rows = [] then none
        else some
          { Name := t, PrimaryKey := (getPrimaryKey c t).1, Columns := columnsOfTable t rows } := by
  unfold createAllSchemaMap at h
  cases hs : scanLoop (c columnsSQL) [] with
  | error e => simp [hs] at h
  | ok m0 =>
    rw [hs] at h
    simp only at h
    cases hp : primaryKeyPass c (ro.order m0) m0 with
    | error e => simp [hp] at h
    | ok m1 =>
      rw [hp] at h
      simp only [Prod.mk.injEq, Option.some.injEq, and_true] at h
      subst h
      obtain ⟨rows, hrows, hall⟩ := scanLoop_ok_inv _ _ _ hs
      obtain ⟨m2, htail, hnd, hkeys, hlook⟩ := scanLoop_rows rows hall [] (by simp [keys])
      have hm2 : m2 = m0 := by
        have := htail []
        rw [List.append_nil, ← hrows, hs] at this
        simp only [scanLoop, Except.ok.injEq] at this
        exact this.symm
      subst hm2
      have hq := primaryKeyPass_ok_inv c _ _ _ hp
      obtain ⟨m3, hpass, hkeys3, hlook3⟩ := primaryKeyPass_ok c (ro.order m2) m2 hq
      rw [hp] at hpass
      simp only [Except.ok.injEq] at hpass
      subst hpass
      refine ⟨rows, hrows, hall, by rw [hkeys3]; exact hnd, fun t => ?_, fun t ht => ?_, fun t => ?_⟩
      · rw [hkeys3, hkeys t]; simp [keys]
      · rw [hkeys3, ← keys_mem_of_perm _ _ (ro.perm m2)] at ht
        obtain ⟨e, he, rfl⟩ := List.mem_map.1 ht
        exact hq e he
      · rw [hlook3 t, hlook t]
        simp only [List.lookup]
        by_cases hr : rowsOfTable t rows = []
        · simp [hr]
        · have ht : t ∈ keys (ro.order m2) := by
            rw [keys_mem_of_perm _ _ (ro.perm m2), hkeys t]
            right
            by_contra hcon
            exact hr ((rowsOfTable_eq_nil_iff t rows).2 hcon)
          simp [hr, ht]

/-- Discovery succeeds when the column stream holds only rows that are taken
and the primary-key query of every table of the stream succeeds. -/
theorem createAllSchemaMap_succeeds (c : Client) (ro : MapOrder) (rows : List Row)
    (hstream : c columnsSQL = rows.map Except.ok) (hrows : ∀ r ∈ rows, rowError r = none)
    (hpk : ∀ r ∈ rows, ∀ t, rowTable r = some t → (getPrimaryKey c t).2 = none) :
    ∃ m, createAllSchemaMap c ro = (some m, none) := by
  obtain ⟨m2, htail, hnd, hkeys, hlook⟩ := scanLoop_rows rows hrows [] (by simp [keys])
  have hs : scanLoop (c columnsSQL) [] = Except.ok m2 := by
    have := htail []
    rw [List.append_nil] at this
    rw [hstream, this, scanLoop]
  have hq : ∀ e ∈ ro.order m2, (getPrimaryKey c e.1).2 = none := by
    intro e he
    have : e.1 ∈ keys m2 := by
      rw [← keys_mem_of_perm _ _ (ro.perm m2)]
      exact List.mem_map_of_mem Prod.fst he
    rw [hkeys] at this
    rcases this with h1 | ⟨r, hr, ht⟩
    · simp [keys] at h1
    · exact hpk r hr _ ht
  obtain ⟨m3, hpass, _, _⟩ := primaryKeyPass_ok c (ro.order m2) m2 hq
  exact ⟨m3, by simp only [createAllSchemaMap, hs, hpass]⟩

/-! ## Lookup of one schema -/

theorem find_key_of_perm (l m : SchemaMap) (hp : l.Perm m) (hn : (keys m).Nodup) (name : String) :
    l.find? (fun e => e.1 == name) = (m.lookup name).map (fun sc => (name, sc)) := by
  cases hf : l.find? (fun e => e.1 == name) with
  | none =>
    have hnot : name ∉ keys m := by
      intro hmem
      rw [← keys_mem_of_perm l m hp] at hmem
      obtain ⟨e, he, hname⟩ := List.mem_map.1 hmem
      have := List.find?_eq_none.1 hf e he
      simp [hname] at this
    rw [(lookup_eq_none_iff m name).2 hnot]
    rfl
  | some e =>
    have h1 : e.1 = name := by simpa using List.find?_some hf
    have h2 : e ∈ m := hp.mem_iff.1 (List.mem_of_find?_eq_some hf)
    obtain ⟨k, v⟩ := e
    simp only at h1
    subst h1
    rw [lookup_eq_some_of_mem m hn k v h2]
    rfl

theorem getSchema_of_discovery (c : Client) (ro ro2 : MapOrder) (name : String) (m : SchemaMap)
    (hd : createAllSchemaMap c ro = (some m, none)) (hn : (keys m).Nodup) :
    GetSchema c ro ro2 name =
      match m.lookup name with
      | some sc => (some sc, none)
      | none => (none, some (GoError.errorsNew ("Schema not found: " ++ name))) := by
  unfold GetSchema
  rw [hd]
  simp only [Option.getD_some]
  rw [find_key_of_perm _ m (ro2.perm m) hn name]
  cases m.lookup name <;> rfl

theorem getSchema_of_discovery_error (c : Client) (ro ro2 : MapOrder) (name : String) (e : GoError)
    (hd : createAllSchemaMap c ro = (none, some e)) :
    GetSchema c ro ro2 name = (none, some e) := by
  unfold GetSchema
  rw [hd]

theorem createAllSchemaMap_shape (c : Client) (ro : MapOrder) :
    (∃ m, createAllSchemaMap c ro = (some m, none)) ∨
      ∃ e, createAllSchemaMap c ro = (none, some e) := by
  unfold createAllSchemaMap
  cases scanLoop (c columnsSQL) [] with
  | error e => exact Or.inr ⟨e, rfl⟩
  | ok m0 =>
    cases hp : primaryKeyPass c (ro.order m0) m0 with
    | error e => exact Or.inr ⟨e, by simp only [hp]⟩
    | ok m1 => exact Or.inl ⟨m1, by simp only [hp]⟩

theorem getSchema_shape (c : Client) (ro ro2 : MapOrder) (name : String) :
    (∃ sc, GetSchema c ro ro2 name = (some sc, none)) ∨
      ∃ e, GetSchema c ro ro2 name = (none, some e) := by
  unfold GetSchema
  rcases createAllSchemaMap_shape c ro with ⟨m, hm⟩ | ⟨e, he⟩
  · rw [hm]
    simp only
    cases (ro2.order ((some m).getD [])).find? (fun e => e.1 == name) with
    | none => exact Or.inr ⟨_, rfl⟩
    | some e => exact Or.inl ⟨_, rfl⟩
  · rw [he]
    exact Or.inr ⟨e, rfl⟩

/-- C5: when discovery succeeds with map `m`, `GetSchema` returns the NotFound
error (with a nil Schema) exactly when no key of `m` equals the requested name;
when a key equals it, `GetSchema` returns the Schema stored under that key
with a nil error, and the Name of that Schema is the requested name.  On no
client and for no name does `GetSchema` return a nil Schema with a nil
error. -/
theorem getSchema_found_or_notFound (c : Client) (ro ro2 : MapOrder) (name : String)
    (m : SchemaMap) (hd : createAllSchemaMap c ro = (some m, none)) :
    (GetSchema c ro ro2 name = (none, some (GoError.errorsNew ("Schema not found: " ++ name))) ↔
      name ∉ keys m) ∧
    (name ∈ keys m →
      ∃ sc, m.lookup name = some sc ∧ sc.Name = name ∧
        GetSchema c ro ro2 name = (some sc, none)) ∧
    ∀ (c2 : Client) (ro3 ro4 : MapOrder) (name2 : String),
      GetSchema c2 ro3 ro4 name2 ≠ (none, none) := by
  obtain ⟨rows, _, _, hnd, _, _, hlook⟩ := createAllSchemaMap_ok c ro m hd
  have hg := getSchema_of_discovery c ro ro2 name m hd hnd
  refine ⟨?_, ?_, ?_⟩
  · rw [hg, ← lookup_eq_none_iff]
    cases m.lookup name <;> simp
  · intro hmem
    cases hl : m.lookup name with
    | none => exact absurd hmem ((lookup_eq_none_iff m name).1 hl)
    | some sc =>
      refine ⟨sc, rfl, ?_, by rw [hg, hl]⟩
      have := hlook name
      rw [hl] at this
      by_cases hr : rowsOfTable name rows = []
      · simp [hr] at this
      · simp only [if_neg hr, Option.some.injEq] at this
        rw [this]
  · intro c2 ro3 ro4 name2
    rcases getSchema_shape c2 ro3 ro4 name2 with ⟨sc, h⟩ | ⟨e, h⟩ <;> rw [h] <;> simp

/-- Witness of C5 on the sample catalog: `T` is found, `V` is not. -/
theorem getSchema_found_or_notFound_witness :
    GetSchema demoClient insertionOrder reverseOrder "T" = (some demoSchemaT, none) ∧
    GetSchema demoClient insertionOrder reverseOrder "V" =
      (none, some (GoError.errorsNew "Schema not found: V")) ∧
    ("V" ∉ keys demoMap ∧ "T" ∈ keys demoMap) ∧
    ((GetSchema demoClient insertionOrder reverseOrder "V" =
        (none, some (GoError.errorsNew ("Schema not found: " ++ "V"))) ↔ "V" ∉ keys demoMap) ∧
      ("V" ∈ keys demoMap →
        ∃ sc, demoMap.lookup "V" = some sc ∧ sc.Name = "V" ∧
          GetSchema demoClient insertionOrder reverseOrder "V" = (some sc, none)) ∧
      ∀ (c2 : Client) (ro3 ro4 : MapOrder) (name2 : String),
        GetSchema c2 ro3 ro4 name2 ≠ (none, none)) :=
  ⟨by decide, by decide, by decide,
    getSchema_found_or_notFound demoClient insertionOrder reverseOrder "V" demoMap (by decide)⟩

/-! ## Columns -/

theorem toInt_of_int64 (p : Int) (h : -2 ^ 63 ≤ p ∧ p < 2 ^ 63) : toInt p = p := by
  unfold toInt
  omega

theorem columns_catalogRow (t c : String) (p : Int) (ty n : String) :
    Row.Columns (catalogRow t c p ty n) = Except.ok (t, c, p, ty, n) := rfl

theorem columnByName_catalogRow (t c : String) (p : Int) (ty n : String) :
    Row.ColumnByName (catalogRow t c p ty n) "TABLE_NAME" = Except.ok t := by
  simp [Row.ColumnByName, catalogRow, List.filter, decodeString]

theorem scanSchemaColumn_catalogRow (t c : String) (p : Int) (ty n : String) :
    ScanSchemaColumn (catalogRow t c p ty n) =
      match spannerTypeNameToColumnType ty with
      | (_, some err) => (none, some err)
      | (ct, none) =>
        (some
          { Name := c, OrdinalPosition := toInt p, Type_ := ct, NotNull := decide (n = "NO"),
            AutoIncrement := false },
         none) := by
  simp only [ScanSchemaColumn, columns_catalogRow]

/-- C6: from a catalog row `(tableName, columnName, ordinalPosition,
nativeType, isNullable)` whose native type the type mapping accepts,
`ScanSchemaColumn` builds, with a nil error, the Column whose Name is
`columnName`, whose OrdinalPosition is `ordinalPosition`, whose Type is the
mapped type, whose NotNull is true exactly when `isNullable` is the string
"NO", and whose AutoIncrement is false. -/
theorem scanSchemaColumn_builds_column (t c : String) (p : Int) (ty n : String)
    (hp : -2 ^ 63 ≤ p ∧ p < 2 ^ 63) (hty : (spannerTypeNameToColumnType ty).2 = none) :
    ScanSchemaColumn (catalogRow t c p ty n) =
      (some
        { Name := c
          OrdinalPosition := p
          Type_ := (spannerTypeNameToColumnType ty).1
          NotNull := decide (n = "NO")
          AutoIncrement := false },
       none) := by
  rw [scanSchemaColumn_catalogRow, toInt_of_int64 p hp]
  rcases hm : spannerTypeNameToColumnType ty with ⟨ct, e⟩
  rw [hm] at hty
  simp only at hty
  subst hty
  rfl

/-- Witness of C6: the rows `(T, id, 1, INT64, NO)` and
`(T, name, 2, STRING(MAX), YES)`. -/
theorem scanSchemaColumn_builds_column_witness :
    ScanSchemaColumn (catalogRow "T" "id" 1 "INT64" "NO") =
      (some
        { Name := "id", OrdinalPosition := 1, Type_ := ColumnType.Int, NotNull := true,
          AutoIncrement := false },
       none) ∧
    ScanSchemaColumn (catalogRow "T" "name" 2 "STRING(MAX)" "YES") =
      (some
        { Name := "name", OrdinalPosition := 2, Type_ := ColumnType.String, NotNull := false,
          AutoIncrement := false },
       none) :=
  ⟨scanSchemaColumn_builds_column "T" "id" 1 "INT64" "NO" (by decide) (by decide),
    scanSchemaColumn_builds_column "T" "name" 2 "STRING(MAX)" "YES" (by decide) (by decide)⟩

/-! ## The discovery pass -/

theorem mem_tableNames (rows : List Row) (t : String) :
    t ∈ tableNames rows ↔ ∃ r ∈ rows, rowTable r = some t := by
  simp [tableNames, List.mem_filterMap]

theorem ok_map_injective (rows rows2 : List Row)
    (h : rows.map (Except.ok : Row → Except GoError Row) = rows2.map Except.ok) : rows = rows2 := by
  induction rows generalizing rows2 with
  | nil =>
    cases rows2 with
    | nil => rfl
    | cons r rs => simp at h
  | cons r rs ih =>
    cases rows2 with
    | nil => simp at h
    | cons r2 rs2 =>
      simp only [List.map_cons, List.cons.injEq, Except.ok.injEq] at h
      rw [h.1, ih rs2 h.2]

/-- C7: on an error-free column stream whose rows are all taken (every native
type is recognised) and with error-free primary-key queries, discovery
succeeds; the keys of the returned map are distinct and are exactly the table
names that occur in the stream; the Schema under key `t` has Name `t` and its
Columns are the columns built from the rows of `t`, one per row, in stream
order. -/
theorem createAllSchemaMap_groups_columns (c : Client) (ro : MapOrder) (rows : List Row)
    (hstream : c columnsSQL = rows.map Except.ok) (hrows : ∀ r ∈ rows, rowError r = none)
    (hpk : ∀ t ∈ tableNames rows, (getPrimaryKey c t).2 = none) :
    ∃ m, createAllSchemaMap c ro = (some m, none) ∧ (keys m).Nodup ∧
      (∀ t, t ∈ keys m ↔ t ∈ tableNames rows) ∧
      ∀ t ∈ keys m, ∃ sc, m.lookup t = some sc ∧ sc.Name = t ∧
        sc.Columns = (rowsOfTable t rows).map (fun r => (ScanSchemaColumn r).1) ∧
        sc.Columns.length = (rowsOfTable t rows).length := by
  have hpk2 : ∀ r ∈ rows, ∀ t, rowTable r = some t → (getPrimaryKey c t).2 = none :=
    fun r hr t ht => hpk t ((mem_tableNames rows t).2 ⟨r, hr, ht⟩)
  obtain ⟨m, hm⟩ := createAllSchemaMap_succeeds c ro rows hstream hrows hpk2
  obtain ⟨rows2, hstream2, _, hnd, hkeys, _, hlook⟩ := createAllSchemaMap_ok c ro m hm
  have hrr : rows2 = rows := ok_map_injective _ _ (hstream2.symm.trans hstream)
  subst hrr
  refine ⟨m, hm, hnd, fun t => by rw [hkeys, mem_tableNames], fun t ht => ?_⟩
  have hne : rowsOfTable t rows2 ≠ [] := by
    rw [Ne, rowsOfTable_eq_nil_iff, not_not]
    exact (hkeys t).1 ht
  refine ⟨_, by rw [hlook t, if_neg hne], rfl, rfl, ?_⟩
  simp [columnsOfTable]

/-- Witness of C7 on the sample catalog, whose stream interleaves the rows of
`T` and `U`. -/
theorem createAllSchemaMap_groups_columns_witness :
    createAllSchemaMap demoClient reverseOrder = (some demoMap, none) ∧
    ∃ m, createAllSchemaMap demoClient reverseOrder = (some m, none) ∧ (keys m).Nodup ∧
      (∀ t, t ∈ keys m ↔ t ∈ tableNames demoRows) ∧
      ∀ t ∈ keys m, ∃ sc, m.lookup t = some sc ∧ sc.Name = t ∧
        sc.Columns = (rowsOfTable t demoRows).map (fun r => (ScanSchemaColumn r).1) ∧
        sc.Columns.length = (rowsOfTable t demoRows).length :=
  ⟨by decide,
    createAllSchemaMap_groups_columns demoClient reverseOrder demoRows rfl (by decide)
      (by decide)⟩

/-- C8: for a table `t` of a successful discovery pass whose primary-key query
streams, without error, rows with the column names `names`: when there is no
row the PrimaryKey of the table is nil, and otherwise it is the Key of type
primary whose ColumnNames is `names`, in the order of the stream and with one
name per row. -/
theorem primaryKey_of_discovered_table (c : Client) (ro : MapOrder) (m : SchemaMap) (t : String)
    (sc : Schema) (hd : createAllSchemaMap c ro = (some m, none)) (ht : m.lookup t = some sc)
    (rows : List Row) (names : List String) (hstream : c (primaryKeySQL t) = rows.map Except.ok)
    (hnames : rows.map (fun r => r.ColumnByName "COLUMN_NAME") = names.map Except.ok) :
    sc.PrimaryKey =
      (if rows = [] then none
       else some { KeyType := KeyType.Primary, ColumnNames := names }) ∧
    names.length = rows.length ∧
    getPrimaryKey c t = (sc.PrimaryKey, none) := by
  have hlen : names.length = rows.length := by
    have := congrArg List.length hnames
    simpa using this.symm
  have hiff : rows = [] ↔ names = [] := by
    rw [← List.length_eq_zero, ← List.length_eq_zero (l := names), hlen]
  have hg : getPrimaryKey c t =
      ((if rows = [] then none
        else some { KeyType := KeyType.Primary, ColumnNames := names }), none) := by
    unfold getPrimaryKey
    have := primaryKeyLoop_names rows names hnames none []
    rw [List.append_nil] at this
    rw [hstream, this]
    by_cases hr : rows = []
    · simp [hr, hiff.1 hr, primaryKeyLoop]
    · have hn : names ≠ [] := fun h => hr (hiff.2 h)
      simp [hr, hn, primaryKeyLoop]
  obtain ⟨rows2, _, _, _, _, _, hlook⟩ := createAllSchemaMap_ok c ro m hd
  have hsc := hlook t
  rw [ht] at hsc
  by_cases hr2 : rowsOfTable t rows2 = []
  · simp [hr2] at hsc
  · simp only [if_neg hr2, Option.some.injEq] at hsc
    have hpk : sc.PrimaryKey = (getPrimaryKey c t).1 := by rw [hsc]
    rw [hg] at hpk
    exact ⟨hpk, hlen, by rw [hg, hpk]⟩

/-- Witness of C8: the primary-key query of `T` returns the single row
`id`. -/
theorem primaryKey_of_discovered_table_witness :
    demoSchemaT.PrimaryKey =
      (if [indexRow "id"] = [] then none
       else some { KeyType := KeyType.Primary, ColumnNames := ["id"] }) ∧
    ["id"].length = [indexRow "id"].length ∧
    getPrimaryKey demoClient "T" = (demoSchemaT.PrimaryKey, none) :=
  primaryKey_of_discovered_table demoClient insertionOrder demoMap "T" demoSchemaT (by decide)
    (by decide) [indexRow "id"] ["id"] rfl rfl

/-! ## Failure of the discovery pass -/

theorem createAllSchemaMap_of_scan_error (c : Client) (ro : MapOrder) (e : GoError)
    (h : scanLoop (c columnsSQL) [] = Except.error e) :
    createAllSchemaMap c ro = (none, some e) := by
  simp only [createAllSchemaMap, h]

theorem scanLoop_of_rows_then (c : Client) (pre : List Row) (tail : RowIterator) (e : GoError)
    (hstream : c columnsSQL = pre.map Except.ok ++ tail) (hpre : ∀ r ∈ pre, rowError r = none)
    (htail : ∀ m, scanLoop tail m = Except.error e) :
    scanLoop (c columnsSQL) [] = Except.error e := by
  obtain ⟨m2, h2, _⟩ := scanLoop_rows pre hpre [] (by simp [keys])
  rw [hstream, h2 tail, htail m2]

theorem getPrimaryKey_of_rows_then (c : Client) (t : String) (pre : List Row) (names : List String)
    (tail : RowIterator) (e : GoError) (hstream : c (primaryKeySQL t) = pre.map Except.ok ++ tail)
    (hpre : pre.map (fun r => r.ColumnByName "COLUMN_NAME") = names.map Except.ok)
    (htail : ∀ pk, primaryKeyLoop tail pk = Except.error e) :
    getPrimaryKey c t = (none, some e) := by
  unfold getPrimaryKey
  rw [hstream, primaryKeyLoop_names pre names hpre none tail, htail]

theorem createAllSchemaMap_of_primaryKey_error (c : Client) (ro : MapOrder) (rows : List Row)
    (hstream : c columnsSQL = rows.map Except.ok) (hrows : ∀ r ∈ rows, rowError r = none)
    (t : String) (ht : t ∈ tableNames rows) (hpk : (getPrimaryKey c t).2 ≠ none) :
    ∃ t2 ∈ tableNames rows, ∃ e, getPrimaryKey c t2 = (none, some e) ∧
      createAllSchemaMap c ro = (none, some e) := by
  obtain ⟨m2, htail, _, hkeys, _⟩ := scanLoop_rows rows hrows [] (by simp [keys])
  have hs : scanLoop (c columnsSQL) [] = Except.ok m2 := by
    have := htail []
    rw [List.append_nil] at this
    rw [hstream, this, scanLoop]
  have hkeys2 : ∀ t, t ∈ keys m2 ↔ t ∈ tableNames rows := by
    intro t
    rw [hkeys, mem_tableNames]
    simp [keys]
  have hex : ∃ e ∈ ro.order m2, (getPrimaryKey c e.1).2 ≠ none := by
    have : t ∈ keys (ro.order m2) := by
      rw [keys_mem_of_perm _ _ (ro.perm m2), hkeys2]; exact ht
    obtain ⟨e, he, hname⟩ := List.mem_map.1 this
    exact ⟨e, he, by rw [hname]; exact hpk⟩
  obtain ⟨t2, ht2, err, hg, hp⟩ := primaryKeyPass_err c (ro.order m2) m2 hex
  refine ⟨t2, ?_, err, hg, ?_⟩
  · rw [← hkeys2, ← keys_mem_of_perm _ _ (ro.perm m2)]; exact ht2
  · simp only [createAllSchemaMap, hs, hp]

/-- C9: discovery is all-or-nothing.  (1) When the column stream reports an
error after any number of rows that were taken, `createAllSchemaMap` returns
that error with a nil map and `GetSchema` returns it with a nil Schema for
every name.  (2) The same holds for the error of the first row that fails to
decode.  (3) When the column stream is taken whole and the primary-key query
of one of its tables fails, both return, with a nil map and a nil Schema, the
error of a failed primary-key query of a table of the stream.  (4) A
primary-key query fails with the error its stream reports, or with the decode
error of a row, after any number of decoded rows.  (5) In every case the
result of `createAllSchemaMap` is a map with a nil error or a nil map with an
error, and likewise for `GetSchema`. -/
theorem discovery_all_or_nothing (c : Client) (ro ro2 : MapOrder) :
    (∀ (pre : List Row) (e : GoError) (rest : RowIterator),
      c columnsSQL = pre.map Except.ok ++ Except.error e :: rest →
      (∀ r ∈ pre, rowError r = none) →
      createAllSchemaMap c ro = (none, some e) ∧
        ∀ name, GetSchema c ro ro2 name = (none, some e)) ∧
    (∀ (pre : List Row) (r : Row) (e : GoError) (rest : RowIterator),
      c columnsSQL = pre.map Except.ok ++ Except.ok r :: rest →
      (∀ r ∈ pre, rowError r = none) → rowError r = some e →
      createAllSchemaMap c ro = (none, some e) ∧
        ∀ name, GetSchema c ro ro2 name = (none, some e)) ∧
    (∀ (rows : List Row) (t : String),
      c columnsSQL = rows.map Except.ok → (∀ r ∈ rows, rowError r = none) →
      t ∈ tableNames rows → (getPrimaryKey c t).2 ≠ none →
      ∃ t2 ∈ tableNames rows, ∃ e, getPrimaryKey c t2 = (none, some e) ∧
        createAllSchemaMap c ro = (none, some e) ∧
        ∀ name, GetSchema c ro ro2 name = (none, some e)) ∧
    (∀ (t : String) (pre : List Row) (names : List String) (e : GoError) (rest : RowIterator),
      pre.map (fun r => r.ColumnByName "COLUMN_NAME") = names.map Except.ok →
      (c (primaryKeySQL t) = pre.map Except.ok ++ Except.error e :: rest ∨
        ∃ r, c (primaryKeySQL t) = pre.map Except.ok ++ Except.ok r :: rest ∧
          r.ColumnByName "COLUMN_NAME" = Except.error e) →
      getPrimaryKey c t = (none, some e)) ∧
    ((∃ m, createAllSchemaMap c ro = (some m, none)) ∨
      ∃ e, createAllSchemaMap c ro = (none, some e)) ∧
    ∀ name, (∃ sc, GetSchema c ro ro2 name = (some sc, none)) ∨
      ∃ e, GetSchema c ro ro2 name = (none, some e) := by
  refine ⟨?_, ?_, ?_, ?_, createAllSchemaMap_shape c ro, getSchema_shape c ro ro2⟩
  · intro pre e rest hstream hpre
    have h := createAllSchemaMap_of_scan_error c ro e
      (scanLoop_of_rows_then c pre _ e hstream hpre (fun m => by simp only [scanLoop]))
    exact ⟨h, fun name => getSchema_of_discovery_error c ro ro2 name e h⟩
  · intro pre r e rest hstream hpre hr
    have h := createAllSchemaMap_of_scan_error c ro e
      (scanLoop_of_rows_then c pre _ e hstream hpre (fun m => scanLoop_fail r rest m e hr))
    exact ⟨h, fun name => getSchema_of_discovery_error c ro ro2 name e h⟩
  · intro rows t hstream hrows ht hpk
    obtain ⟨t2, ht2, e, hg, h⟩ :=
      createAllSchemaMap_of_primaryKey_error c ro rows hstream hrows t ht hpk
    exact ⟨t2, ht2, e, hg, h, fun name => getSchema_of_discovery_error c ro ro2 name e h⟩
  · intro t pre names e rest hpre hstream
    rcases hstream with hstream | ⟨r, hstream, hr⟩
    · exact getPrimaryKey_of_rows_then c t pre names _ e hstream hpre
        (fun pk => by simp only [primaryKeyLoop])
    · exact getPrimaryKey_of_rows_then c t pre names _ e hstream hpre
        (fun pk => by simp only [primaryKeyLoop, hr])

/-- Witness of C9: a column stream that fails after one row. -/
theorem discovery_all_or_nothing_witness :
    createAllSchemaMap brokenClient insertionOrder = (none, some (GoError.client "unavailable")) ∧
    ∀ name, GetSchema brokenClient insertionOrder reverseOrder name =
      (none, some (GoError.client "unavailable")) :=
  (discovery_all_or_nothing brokenClient insertionOrder reverseOrder).1
    [catalogRow "T" "id" 1 "INT64" "NO"] (GoError.client "unavailable") [] rfl (by decide)

/-! ## The order of the columns -/

theorem rowTable_entry (x : CatalogEntry) : rowTable x.row = some x.tableName := by
  simp only [rowTable, CatalogEntry.row, columnByName_catalogRow]
  rfl

theorem rowsOfTable_entries (t : String) (entries : List CatalogEntry) :
    rowsOfTable t (entries.map CatalogEntry.row) =
      (entries.filter (fun x => x.tableName == t)).map CatalogEntry.row := by
  induction entries with
  | nil => rfl
  | cons x xs ih =>
    by_cases h : x.tableName = t
    · rw [List.map_cons, rowsOfTable_cons_same t _ _ (by rw [rowTable_entry, h]), ih]
      simp [List.filter_cons, h]
    · rw [List.map_cons, rowsOfTable_cons_other t x.tableName _ _ (rowTable_entry x)
        (fun h2 => h h2.symm), ih]
      simp [List.filter_cons, h]

theorem scanSchemaColumn_entry (x : CatalogEntry) (h : rowError x.row = none) :
    ∃ col, (ScanSchemaColumn x.row).1 = some col ∧
      col.OrdinalPosition = toInt x.ordinalPosition := by
  obtain ⟨_, _, _, hs⟩ := rowError_eq_none x.row h
  unfold CatalogEntry.row at hs ⊢
  rw [scanSchemaColumn_catalogRow] at hs ⊢
  rcases hm : spannerTypeNameToColumnType x.nativeType with ⟨ct, e⟩
  rw [hm] at hs
  cases e with
  | some err => simp at hs
  | none => exact ⟨_, rfl, rfl⟩

theorem ordinals_of_entries (l : List CatalogEntry) (h : ∀ x ∈ l, rowError x.row = none) :
    (l.map (fun x => (ScanSchemaColumn x.row).1)).filterMap
        (fun col => col.map Column.OrdinalPosition) =
      l.map (fun x => toInt x.ordinalPosition) := by
  induction l with
  | nil => rfl
  | cons x xs ih =>
    obtain ⟨col, hc, ho⟩ := scanSchemaColumn_entry x (h x (List.mem_cons_self _ _))
    rw [List.map_cons, List.filterMap_cons, hc]
    simp only [Option.map_some', List.map_cons, ho]
    rw [ih (fun y hy => h y (List.mem_cons_of_mem _ hy))]

/-- C10, as the code has it: after a successful discovery pass over a column
stream of catalog entries with 64-bit ordinal positions, the OrdinalPosition
values along the Columns of the Schema of table `t` are the ordinal positions
of the entries of `t` in the order the query streamed them; they are strictly
increasing exactly when the query streamed the entries of `t` in strictly
increasing ordinal order. -/
theorem columns_follow_stream_order (c : Client) (ro : MapOrder) (m : SchemaMap)
    (entries : List CatalogEntry)
    (hstream : c columnsSQL = entries.map (fun x => Except.ok x.row))
    (hrange : ∀ x ∈ entries, -2 ^ 63 ≤ x.ordinalPosition ∧ x.ordinalPosition < 2 ^ 63)
    (hd : createAllSchemaMap c ro = (some m, none)) (t : String) (sc : Schema)
    (hsc : m.lookup t = some sc) :
    ordinalPositions sc =
      (entries.filter (fun x => x.tableName == t)).map CatalogEntry.ordinalPosition ∧
    ((ordinalPositions sc).Pairwise (fun a b => a < b) ↔
      ((entries.filter (fun x => x.tableName == t)).map CatalogEntry.ordinalPosition).Pairwise
        (fun a b => a < b)) := by
  obtain ⟨rows, hstream2, hall, _, _, _, hlook⟩ := createAllSchemaMap_ok c ro m hd
  have hrows : rows = entries.map CatalogEntry.row := by
    apply ok_map_injective
    rw [← hstream2, hstream, List.map_map]
    rfl
  subst hrows
  have h1 := hlook t
  rw [hsc] at h1
  have hpos : ordinalPositions sc =
      (entries.filter (fun x => x.tableName == t)).map CatalogEntry.ordinalPosition := by
    by_cases hr : rowsOfTable t (entries.map CatalogEntry.row) = []
    · simp [hr] at h1
    · simp only [if_neg hr, Option.some.injEq] at h1
      rw [h1]
      simp only [ordinalPositions, columnsOfTable, rowsOfTable_entries, List.map_map]
      have hall2 : ∀ x ∈ entries.filter (fun x => x.tableName == t), rowError x.row = none :=
        fun x hx => hall x.row (List.mem_map_of_mem _ (List.mem_of_mem_filter hx))
      have := ordinals_of_entries _ hall2
      simp only [Function.comp_def] at this ⊢
      rw [this]
      apply List.map_congr_left
      intro x hx
      exact toInt_of_int64 _ (hrange x (List.mem_of_mem_filter hx))
  exact ⟨hpos, by rw [hpos]⟩

/-- Witness of C10 as the code has it, on the catalog streamed out of ordinal
order. -/
theorem columns_follow_stream_order_witness :
    ordinalPositions unorderedSchemaT =
      (unorderedEntries.filter (fun x => x.tableName == "T")).map
        CatalogEntry.ordinalPosition ∧
    ((ordinalPositions unorderedSchemaT).Pairwise (fun a b => a < b) ↔
      ((unorderedEntries.filter (fun x => x.tableName == "T")).map
        CatalogEntry.ordinalPosition).Pairwise (fun a b => a < b)) :=
  columns_follow_stream_order unorderedClient insertionOrder [("T", unorderedSchemaT)]
    unorderedEntries rfl (by decide) (by decide) "T" unorderedSchemaT (by decide)

/-- C10 fails as stated: a column stream that delivers ordinal position 2
before ordinal position 1 makes discovery succeed with a Schema whose columns
have the ordinal positions 2, 1 in this order. -/
theorem columns_not_in_ordinal_order :
    createAllSchemaMap unorderedClient insertionOrder = (some [("T", unorderedSchemaT)], none) ∧
    ordinalPositions unorderedSchemaT = [2, 1] ∧
    ¬ (ordinalPositions unorderedSchemaT).Pairwise (fun a b => a < b) :=
  ⟨by decide, by decide, by decide⟩

/-! ## Unsupported writes -/

/-- C11: for every handle, table name, schema argument (nil included) and row
sequence (empty included), `SetSchema` and `SetRows` return their fixed
error and never a nil error, make no call on the session client, and leave the
handle as it was. -/
theorem setSchema_setRows_unsupported (c : spannerConn) (name : String) (schema : Option Schema)
    (rows : List DriverRow) :
    (SetSchema c name schema).result = some (GoError.errorsNew "not implemented") ∧
    (SetSchema c name schema).result ≠ none ∧
    (SetSchema c name schema).calls = [] ∧
    (SetSchema c name schema).conn = c ∧
    (SetRows c name rows).result =
      some (GoError.errorsNew "SpannerDatasource does not support SetRows()") ∧
    (SetRows c name rows).result ≠ none ∧
    (SetRows c name rows).calls = [] ∧
    (SetRows c name rows).conn = c := by
  refine ⟨rfl, ?_, rfl, rfl, rfl, ?_, rfl, rfl⟩ <;> simp [SetSchema, SetRows]

/-! ## Row retrieval -/

theorem getRowsLoop_rows (rows : List Row) (acc : List DriverRow) :
    getRowsLoop (rows.map Except.ok) acc = Except.ok acc := by
  induction rows with
  | nil => rfl
  | cons r rs ih => simpa [getRowsLoop] using ih

/-- The method `GetRows` returns no row and a nil error on every data query
that streams to completion without error, however many rows it streams. -/
theorem getRows_of_rows (c : Client) (name : String) (rows : List Row)
    (h : c (rowsSQL name) = rows.map Except.ok) : GetRows c name = ([], none) := by
  simp only [GetRows, h, getRowsLoop_rows]

/-- C12 fails on the code: the data query of table `T` streams one row to
completion without error, and `GetRows` returns the empty row sequence with a
nil error, neither the row nor an error. -/
theorem getRows_drops_rows :
    rowsClient (rowsSQL "T") = [Except.ok [("id", Value.int64 7)]] ∧
    GetRows rowsClient "T" = ([], none) :=
  ⟨rfl, by decide⟩

/-! ## Closing the handle -/

theorem close_result (c : spannerConn) : (Close c).result = none := by
  unfold Close
  split <;> rfl

theorem close_conn (c : spannerConn) : (Close c).conn = c := by
  unfold Close
  split <;> rfl

theorem close_calls (c : spannerConn) :
    (Close c).calls = if c.spannerClient.isSome then [ClientCall.close] else [] := by
  unfold Close
  split <;> rfl

theorem closeTimes_succ (n : Nat) (c : spannerConn) :
    closeTimes (n + 1) c =
      (none :: (closeTimes n c).1, (closeTimes n c).2.1, (Close c).calls ++ (closeTimes n c).2.2) := by
  simp only [closeTimes, close_result, close_conn]

theorem closeTimes_results (n : Nat) (c : spannerConn) :
    (closeTimes n c).1 = List.replicate n none := by
  induction n with
  | zero => rfl
  | succ n ih => rw [closeTimes_succ, List.replicate_succ, ih]

theorem closeTimes_conn (n : Nat) (c : spannerConn) : (closeTimes n c).2.1 = c := by
  induction n with
  | zero => rfl
  | succ n ih => rw [closeTimes_succ]; exact ih

theorem closeTimes_calls (n : Nat) (c : spannerConn) :
    (closeTimes n c).2.2 =
      if c.spannerClient.isSome then List.replicate n ClientCall.close else [] := by
  induction n with
  | zero => simp [closeTimes]
  | succ n ih =>
    rw [closeTimes_succ]
    simp only [ih, close_calls]
    split <;> simp [List.replicate_succ]

/-- C13: `Close` returns a nil error on every handle; on a handle whose
session client is nil it makes no call on the client and leaves the handle as
it was; and each of `n` consecutive calls on one handle returns a nil error. -/
theorem close_returns_no_error (c : spannerConn) (n : Nat) :
    (Close c).result = none ∧
    (c.spannerClient = none → (Close c).calls = [] ∧ (Close c).conn = c) ∧
    (closeTimes n c).1 = List.replicate n none ∧
    (closeTimes n c).1.length = n ∧
    ∀ e ∈ (closeTimes n c).1, e = none := by
  refine ⟨close_result c, fun h => ⟨by rw [close_calls, h]; rfl, close_conn c⟩,
    closeTimes_results n c, by rw [closeTimes_results, List.length_replicate], fun e he => ?_⟩
  rw [closeTimes_results] at he
  exact List.eq_of_mem_replicate he

/-- Witness of C13: two calls on a handle that was never opened and on one
that was. -/
theorem close_returns_no_error_witness :
    ((Close neverOpenedConn).calls = [] ∧ (Close neverOpenedConn).conn = neverOpenedConn) ∧
    (closeTimes 2 openedConn).1 = [none, none] :=
  ⟨(close_returns_no_error neverOpenedConn 2).2.1 rfl,
    (close_returns_no_error openedConn 2).2.2.1⟩

/-- C14, as the code has it: on a handle whose session client is not nil, `n`
consecutive calls of `Close` call the close operation of the session client
`n` times, once in each call, and every call leaves the handle as it was. -/
theorem close_calls_client_each_time (c : spannerConn) (h : c.spannerClient.isSome = true)
    (n : Nat) :
    (closeTimes n c).2.2 = List.replicate n ClientCall.close ∧
    ((closeTimes n c).2.2.count ClientCall.close = n) ∧
    (closeTimes n c).2.1 = c ∧
    (Close c).calls = [ClientCall.close] ∧
    (Close c).conn = c := by
  have hc : (closeTimes n c).2.2 = List.replicate n ClientCall.close := by
    rw [closeTimes_calls, if_pos h]
  refine ⟨hc, ?_, closeTimes_conn n c, by rw [close_calls, if_pos h], close_conn c⟩
  rw [hc, List.count_replicate_self]

/-- Witness of C14 as the code has it: three calls on an opened handle. -/
theorem close_calls_client_each_time_witness :
    (closeTimes 3 openedConn).2.2 = List.replicate 3 ClientCall.close ∧
    ((closeTimes 3 openedConn).2.2.count ClientCall.close = 3) ∧
    (closeTimes 3 openedConn).2.1 = openedConn ∧
    (Close openedConn).calls = [ClientCall.close] ∧
    (Close openedConn).conn = openedConn :=
  close_calls_client_each_time openedConn rfl 3

/-- C14 fails as stated: two calls of `Close` on an opened handle call the
close operation of the session client twice, the second call being no
no-op. -/
theorem close_twice_calls_client_twice :
    (closeTimes 2 openedConn).2.2 = [ClientCall.close, ClientCall.close] ∧
    (closeTimes 2 openedConn).2.2.count ClientCall.close ≠ 1 ∧
    (Close (Close openedConn).conn).calls ≠ [] :=
  ⟨by decide, by decide, by decide⟩

/-! ## Opening a handle -/

/-- C17: `Open` returns a nil handle with the error of `spanner.NewClient`
exactly when `spanner.NewClient` fails, and otherwise a handle with a nil
error whose DSN is the descriptor and whose session client is the client just
made; the handle is nil exactly when the error is not. -/
theorem open_handle_or_error (NewClient : String → Option Client × Option GoError)
    (dsn : String) :
    (∀ err, (NewClient dsn).2 = some err → Open NewClient dsn = (none, some err)) ∧
    ((NewClient dsn).2 = none →
      Open NewClient dsn =
        (some { DSN := dsn, spannerClient := (NewClient dsn).1 }, none)) ∧
    ((Open NewClient dsn).2 ≠ none ↔ (NewClient dsn).2 ≠ none) ∧
    ((Open NewClient dsn).1 = none ↔ (Open NewClient dsn).2 ≠ none) := by
  unfold Open
  rcases hn : NewClient dsn with ⟨cl, e⟩
  cases e with
  | none => simp
  | some err => simp

/-- Witness of C17: a descriptor that is refused and one that is accepted. -/
theorem open_handle_or_error_witness :
    Open demoNewClient "" = (none, some (GoError.client "invalid database name")) ∧
    Open demoNewClient "projects/p/instances/i/databases/d" =
      (some
        { DSN := "projects/p/instances/i/databases/d"
          spannerClient := (demoNewClient "projects/p/instances/i/databases/d").1 },
       none) :=
  ⟨(open_handle_or_error demoNewClient "").1 _ rfl,
    (open_handle_or_error demoNewClient "projects/p/instances/i/databases/d").2.1 rfl⟩

/-! ## Totality of the type mapping -/

theorem typeName_success_or_failure (st : String) :
    (∃ ty, ty ≠ ColumnType.Null ∧ spannerTypeNameToColumnType st = (ty, none)) ∨
      spannerTypeNameToColumnType st =
        (ColumnType.Null, some (GoError.errorsNew ("cannot convert spanner type: " ++ st))) := by
  by_cases h1 : st = "INT64"
  · subst h1; exact Or.inl ⟨ColumnType.Int, by decide, by decide⟩
  by_cases h2 : st = "FLOAT64"
  · subst h2; exact Or.inl ⟨ColumnType.Float, by decide, by decide⟩
  by_cases h3 : st = "TIMESTAMP"
  · subst h3; exact Or.inl ⟨ColumnType.Datetime, by decide, by decide⟩
  by_cases h4 : st = "DATE"
  · subst h4; exact Or.inl ⟨ColumnType.Date, by decide, by decide⟩
  by_cases h5 : st = "BOOL"
  · subst h5; exact Or.inl ⟨ColumnType.Bool, by decide, by decide⟩
  rw [typeName_of_not_exact st h1 h2 h3 h4 h5]
  by_cases p1 : HasPrefix st "STRING" = true
  · rw [if_pos p1]; exact Or.inl ⟨ColumnType.String, by decide, rfl⟩
  rw [if_neg p1]
  by_cases p2 : HasPrefix st "BYTES" = true
  · rw [if_pos p2]; exact Or.inl ⟨ColumnType.Bytes, by decide, rfl⟩
  rw [if_neg p2]
  by_cases p3 : HasPrefix st "ARRAY<STRING" = true
  · rw [if_pos p3]; exact Or.inl ⟨ColumnType.StringArray, by decide, rfl⟩
  rw [if_neg p3]
  by_cases p4 : HasPrefix st "ARRAY<BYTES" = true
  · rw [if_pos p4]; exact Or.inl ⟨ColumnType.BytesArray, by decide, rfl⟩
  rw [if_neg p4]
  by_cases p5 : HasPrefix st "ARRAY<DATE" = true
  · rw [if_pos p5]; exact Or.inl ⟨ColumnType.DateArray, by decide, rfl⟩
  rw [if_neg p5]
  by_cases p6 : HasPrefix st "ARRAY<FLOAT64" = true
  · rw [if_pos p6]; exact Or.inl ⟨ColumnType.FloatArray, by decide, rfl⟩
  rw [if_neg p6]
  by_cases p7 : HasPrefix st "ARRAY<INT64" = true
  · rw [if_pos p7]; exact Or.inl ⟨ColumnType.IntArray, by decide, rfl⟩
  rw [if_neg p7]
  by_cases p8 : HasPrefix st "ARRAY<TIMESTAMP" = true
  · rw [if_pos p8]; exact Or.inl ⟨ColumnType.DatetimeArray, by decide, rfl⟩
  rw [if_neg p8]
  by_cases p9 : HasPrefix st "ARRAY<BOOL" = true
  · rw [if_pos p9]; exact Or.inl ⟨ColumnType.BoolArray, by decide, rfl⟩
  rw [if_neg p9]
  exact Or.inr rfl

theorem typeName_error_eq (st : String) (h : (spannerTypeNameToColumnType st).2 ≠ none) :
    spannerTypeNameToColumnType st =
      (ColumnType.Null, some (GoError.errorsNew ("cannot convert spanner type: " ++ st))) := by
  rcases typeName_success_or_failure st with ⟨ty, _, hty⟩ | hf
  · rw [hty] at h; exact absurd rfl h
  · exact hf

/-- C16: the type mapping is a total function of its argument: on every
string it returns either one of the fourteen types other than null with a nil
error, or the failure for that string, and never both; and on equal strings
it returns equal results. -/
theorem typeName_total_deterministic (st : String) :
    ((∃ ty, ty ≠ ColumnType.Null ∧ spannerTypeNameToColumnType st = (ty, none)) ∨
      spannerTypeNameToColumnType st =
        (ColumnType.Null, some (GoError.errorsNew ("cannot convert spanner type: " ++ st)))) ∧
    ¬ ((∃ ty, ty ≠ ColumnType.Null ∧ spannerTypeNameToColumnType st = (ty, none)) ∧
      ∃ e, (spannerTypeNameToColumnType st).2 = some e) ∧
    ∀ st2 : String, st2 = st → spannerTypeNameToColumnType st2 = spannerTypeNameToColumnType st := by
  refine ⟨typeName_success_or_failure st, ?_, fun st2 h => by rw [h]⟩
  rintro ⟨⟨ty, _, hty⟩, e, he⟩
  rw [hty] at he
  cases he

/-- Witness of C16 on a text that is not ASCII. -/
theorem typeName_total_deterministic_witness :
    spannerTypeNameToColumnType ("日本" ++ "語") = spannerTypeNameToColumnType "日本語" :=
  (typeName_total_deterministic "日本語").2.2 ("日本" ++ "語") (by decide)

/-! ## The order of the checks -/

theorem applyChecks_nil (st : String) :
    applyChecks [] st =
      (ColumnType.Null, some (GoError.errorsNew ("cannot convert spanner type: " ++ st))) := rfl

theorem applyChecks_cons (k : Check) (l : List Check) (st : String) :
    applyChecks (k :: l) st = if k.holds st then (k.result, none) else applyChecks l st := by
  unfold applyChecks
  by_cases h : k.holds st = true
  · simp [List.find?_cons, h]
  · simp [List.find?_cons, h]

theorem typeName_eq_applyChecks (st : String) :
    spannerTypeNameToColumnType st = applyChecks checks st := by
  unfold checks spannerTypeNameToColumnType
  simp only [applyChecks_cons, applyChecks_nil, Check.holds, Check.result, decide_eq_true_eq]

theorem hasPrefix_of_holds (k : Check) (st : String) (h : k.holds st = true) :
    HasPrefix st k.pattern = true := by
  cases k with
  | exact s ty =>
    simp only [Check.holds, decide_eq_true_eq] at h
    subst h
    exact (hasPrefix_iff _ _).2 ⟨"", by simp [Check.pattern]⟩
  | startsWith s ty => exact h

theorem patterns_comparable (st p q : String) (hp : HasPrefix st p = true)
    (hq : HasPrefix st q = true) :
    (p.data.isPrefixOf q.data || q.data.isPrefixOf p.data) = true := by
  unfold HasPrefix at hp hq
  rw [List.isPrefixOf_iff_prefix] at hp hq
  rw [Bool.or_eq_true, List.isPrefixOf_iff_prefix, List.isPrefixOf_iff_prefix]
  exact List.prefix_or_prefix_of_prefix hp hq

theorem checks_patterns_incomparable :
    checks.Pairwise (fun a b =>
      (a.pattern.data.isPrefixOf b.pattern.data || b.pattern.data.isPrefixOf a.pattern.data) =
        false) := by
  decide

theorem checks_exclusive :
    checks.Pairwise (fun a b => ∀ st, ¬ (a.holds st = true ∧ b.holds st = true)) := by
  refine checks_patterns_incomparable.imp ?_
  intro a b hab st ⟨ha, hb⟩
  have := patterns_comparable st a.pattern b.pattern (hasPrefix_of_holds a st ha)
    (hasPrefix_of_holds b st hb)
  rw [hab] at this
  cases this

theorem applyChecks_of_unique (l : List Check) (st : String) (k : Check) (hk : k ∈ l)
    (hh : k.holds st = true) (huniq : ∀ k2 ∈ l, k2.holds st = true → k2 = k) :
    applyChecks l st = (k.result, none) := by
  unfold applyChecks
  cases hf : l.find? (fun k => k.holds st) with
  | none =>
    have := List.find?_eq_none.1 hf k hk
    simp [hh] at this
  | some k2 =>
    have h1 : k2.holds st = true := by simpa using List.find?_some hf
    rw [huniq k2 (List.mem_of_find?_eq_some hf) h1]

theorem applyChecks_of_none (l : List Check) (st : String)
    (h : ∀ k ∈ l, ¬ k.holds st = true) :
    applyChecks l st =
      (ColumnType.Null, some (GoError.errorsNew ("cannot convert spanner type: " ++ st))) := by
  unfold applyChecks
  have : l.find? (fun k => k.holds st) = none := List.find?_eq_none.2 (by simpa using h)
  rw [this]

theorem applyChecks_perm (l : List Check) (st : String) (hp : l.Perm checks) :
    applyChecks l st = applyChecks checks st := by
  by_cases hex : ∃ k ∈ checks, k.holds st = true
  · obtain ⟨k, hk, hh⟩ := hex
    have huniq : ∀ k2 ∈ checks, k2.holds st = true → k2 = k := by
      intro k2 hk2 hh2
      by_contra hne
      have hsymm : Symmetric (fun a b : Check => ∀ st, ¬ (a.holds st = true ∧ b.holds st = true)) :=
        fun a b hab st h => hab st ⟨h.2, h.1⟩
      exact checks_exclusive.forall hsymm hk2 hk hne st ⟨hh2, hh⟩
    rw [applyChecks_of_unique checks st k hk hh huniq,
      applyChecks_of_unique l st k (hp.mem_iff.2 hk) hh
        (fun k2 hk2 => huniq k2 (hp.mem_iff.1 hk2))]
  · have hnone : ∀ k ∈ checks, ¬ k.holds st = true := fun k hk hh => hex ⟨k, hk, hh⟩
    rw [applyChecks_of_none checks st hnone,
      applyChecks_of_none l st (fun k hk => hnone k (hp.mem_iff.1 hk))]

/-- C18: the fourteen checks of the type mapping are mutually exclusive: no
string satisfies two of them; the mapping is the first-match evaluation of the
list of its checks, and the first-match evaluation of every permutation of that
list gives the same result on every string. -/
theorem checks_mutually_exclusive :
    checks.length = 14 ∧
    (∀ st, spannerTypeNameToColumnType st = applyChecks checks st) ∧
    checks.Pairwise (fun a b => ∀ st, ¬ (a.holds st = true ∧ b.holds st = true)) ∧
    ∀ (l : List Check) (st : String), l.Perm checks →
      applyChecks l st = spannerTypeNameToColumnType st :=
  ⟨rfl, typeName_eq_applyChecks, checks_exclusive,
    fun l st hp => by rw [applyChecks_perm l st hp, typeName_eq_applyChecks]⟩

/-- Witness of C18: the checks applied in reverse order. -/
theorem checks_mutually_exclusive_witness :
    applyChecks checks.reverse "ARRAY<INT64>" = spannerTypeNameToColumnType "ARRAY<INT64>" :=
  checks_mutually_exclusive.2.2.2 checks.reverse "ARRAY<INT64>" (List.reverse_perm checks)

/-! ## Primary-key names and column names -/

theorem getPrimaryKey_of_names (c : Client) (t : String) (rows : List Row) (names : List String)
    (hstream : c (primaryKeySQL t) = rows.map Except.ok)
    (hnames : rows.map (fun r => r.ColumnByName "COLUMN_NAME") = names.map Except.ok) :
    getPrimaryKey c t =
      ((if names = [] then none
        else some { KeyType := KeyType.Primary, ColumnNames := names }), none) := by
  unfold getPrimaryKey
  have := primaryKeyLoop_names rows names hnames none []
  rw [List.append_nil] at this
  rw [hstream, this]
  by_cases hn : names = [] <;> simp [hn, primaryKeyLoop]

theorem scanSchemaColumn_entry_name (x : CatalogEntry) (h : rowError x.row = none) :
    ∃ col, (ScanSchemaColumn x.row).1 = some col ∧ col.Name = x.columnName := by
  obtain ⟨_, _, _, hs⟩ := rowError_eq_none x.row h
  unfold CatalogEntry.row at hs ⊢
  rw [scanSchemaColumn_catalogRow] at hs ⊢
  rcases hm : spannerTypeNameToColumnType x.nativeType with ⟨ct, e⟩
  rw [hm] at hs
  cases e with
  | some err => simp at hs
  | none => exact ⟨_, rfl, rfl⟩

theorem names_of_entries (l : List CatalogEntry) (h : ∀ x ∈ l, rowError x.row = none) :
    (l.map (fun x => (ScanSchemaColumn x.row).1)).filterMap (fun col => col.map Column.Name) =
      l.map CatalogEntry.columnName := by
  induction l with
  | nil => rfl
  | cons x xs ih =>
    obtain ⟨col, hc, hn⟩ := scanSchemaColumn_entry_name x (h x (List.mem_cons_self _ _))
    rw [List.map_cons, List.filterMap_cons, hc]
    simp only [Option.map_some', List.map_cons, hn]
    rw [ih (fun y hy => h y (List.mem_cons_of_mem _ hy))]

/-- C15, as the code has it: after a successful discovery pass over a column
stream of catalog entries, the primary-key names of the Schema of table `t` are
the names that the primary-key query of `t` returned, and the column names of
the Schema are the column names of the entries of `t`; so every primary-key
name is the Name of a Column of the Schema when the column stream holds, for
each name the primary-key query returned, an entry of `t` with that column
name. -/
theorem primaryKey_names_in_columns_of_catalog (c : Client) (ro : MapOrder) (m : SchemaMap)
    (entries : List CatalogEntry)
    (hstream : c columnsSQL = entries.map (fun x => Except.ok x.row))
    (hd : createAllSchemaMap c ro = (some m, none)) (t : String) (sc : Schema)
    (hsc : m.lookup t = some sc) (rows : List Row) (names : List String)
    (hkeyStream : c (primaryKeySQL t) = rows.map Except.ok)
    (hnames : rows.map (fun r => r.ColumnByName "COLUMN_NAME") = names.map Except.ok)
    (hcat : ∀ n ∈ names, ∃ x ∈ entries, x.tableName = t ∧ x.columnName = n) :
    primaryKeyNames sc = names ∧
    columnNames sc = (entries.filter (fun x => x.tableName == t)).map CatalogEntry.columnName ∧
    ∀ n ∈ primaryKeyNames sc, n ∈ columnNames sc := by
  obtain ⟨rows2, hstream2, hall, _, _, _, hlook⟩ := createAllSchemaMap_ok c ro m hd
  have hrows : rows2 = entries.map CatalogEntry.row := by
    apply ok_map_injective
    rw [← hstream2, hstream, List.map_map]
    rfl
  subst hrows
  have h1 := hlook t
  rw [hsc] at h1
  by_cases hr : rowsOfTable t (entries.map CatalogEntry.row) = []
  · simp [hr] at h1
  · simp only [if_neg hr, Option.some.injEq] at h1
    have hkey : primaryKeyNames sc = names := by
      rw [h1]
      simp only [primaryKeyNames, getPrimaryKey_of_names c t rows names hkeyStream hnames]
      by_cases hn : names = [] <;> simp [hn]
    have hcols : columnNames sc =
        (entries.filter (fun x => x.tableName == t)).map CatalogEntry.columnName := by
      rw [h1]
      simp only [columnNames, columnsOfTable, rowsOfTable_entries, List.map_map]
      have hall2 : ∀ x ∈ entries.filter (fun x => x.tableName == t), rowError x.row = none :=
        fun x hx => hall x.row (List.mem_map_of_mem _ (List.mem_of_mem_filter hx))
      have := names_of_entries _ hall2
      simp only [Function.comp_def] at this ⊢
      exact this
    refine ⟨hkey, hcols, fun n hn => ?_⟩
    rw [hkey] at hn
    obtain ⟨x, hx, hxt, hxn⟩ := hcat n hn
    rw [hcols, List.mem_map]
    exact ⟨x, List.mem_filter.2 ⟨hx, by simpa using hxt⟩, hxn⟩

/-- Witness of C15 as the code has it, on the sample catalog: the primary key
of `T` is its column `id`. -/
theorem primaryKey_names_in_columns_of_catalog_witness :
    primaryKeyNames demoSchemaT = ["id"] ∧
    columnNames demoSchemaT =
      (demoEntries.filter (fun x => x.tableName == "T")).map CatalogEntry.columnName ∧
    ∀ n ∈ primaryKeyNames demoSchemaT, n ∈ columnNames demoSchemaT :=
  primaryKey_names_in_columns_of_catalog demoClient insertionOrder demoMap demoEntries rfl
    (by decide) "T" demoSchemaT (by decide) [indexRow "id"] ["id"] rfl rfl (by decide)

/-- C15 fails as stated: the primary-key query of `T` returns the name
`ghost`, which no row of the column query carries; discovery succeeds and the
Schema of `T` has the primary-key name `ghost` and the single column `id`. -/
theorem primaryKey_names_not_columns :
    createAllSchemaMap ghostKeyClient insertionOrder = (some [("T", ghostSchemaT)], none) ∧
    primaryKeyNames ghostSchemaT = ["ghost"] ∧
    columnNames ghostSchemaT = ["id"] ∧
    ¬ ∀ n ∈ primaryKeyNames ghostSchemaT, n ∈ columnNames ghostSchemaT :=
  ⟨by decide, by decide, by decide, by decide⟩

/-! ## An unrecognised native type -/

theorem rowError_entry (x : CatalogEntry) :
    rowError x.row = (spannerTypeNameToColumnType x.nativeType).2 := by
  unfold rowError CatalogEntry.row
  rw [columnByName_catalogRow, scanSchemaColumn_catalogRow]
  simp only
  rcases hm : spannerTypeNameToColumnType x.nativeType with ⟨ct, e⟩
  cases e <;> rfl

theorem exists_first_rejected (entries : List CatalogEntry)
    (h : ∃ x ∈ entries, (spannerTypeNameToColumnType x.nativeType).2 ≠ none) :
    ∃ pre y post, entries = pre ++ y :: post ∧
      (∀ z ∈ pre, (spannerTypeNameToColumnType z.nativeType).2 = none) ∧
      (spannerTypeNameToColumnType y.nativeType).2 ≠ none := by
  induction entries with
  | nil => simp at h
  | cons x xs ih =>
    by_cases hx : (spannerTypeNameToColumnType x.nativeType).2 = none
    · have h2 : ∃ z ∈ xs, (spannerTypeNameToColumnType z.nativeType).2 ≠ none := by
        obtain ⟨z, hz, hne⟩ := h
        rcases List.mem_cons.1 hz with h1 | h1
        · subst h1; exact absurd hx hne
        · exact ⟨z, h1, hne⟩
      obtain ⟨pre, y, post, he, hpre, hy⟩ := ih h2
      refine ⟨x :: pre, y, post, by rw [he]; rfl, ?_, hy⟩
      intro z hz
      rcases List.mem_cons.1 hz with h1 | h1
      · subst h1; exact hx
      · exact hpre z h1
    · exact ⟨[], x, xs, rfl, by simp, hx⟩

/-- C19: when the column stream is a stream of catalog entries of which at
least one has a native type that the type mapping rejects, discovery returns a
nil map and `GetSchema` returns a nil Schema for every requested name, both
with the mapping error of the first such entry of the stream, whatever table
that entry and the requested name belong to. -/
theorem getSchema_fails_on_unrecognised_type (c : Client) (ro ro2 : MapOrder)
    (entries : List CatalogEntry)
    (hstream : c columnsSQL = entries.map (fun x => Except.ok x.row))
    (hbad : ∃ x ∈ entries, (spannerTypeNameToColumnType x.nativeType).2 ≠ none) :
    ∃ pre y post, entries = pre ++ y :: post ∧
      (∀ z ∈ pre, (spannerTypeNameToColumnType z.nativeType).2 = none) ∧
      (spannerTypeNameToColumnType y.nativeType).2 ≠ none ∧
      createAllSchemaMap c ro =
        (none, some (GoError.errorsNew ("cannot convert spanner type: " ++ y.nativeType))) ∧
      ∀ name, GetSchema c ro ro2 name =
        (none, some (GoError.errorsNew ("cannot convert spanner type: " ++ y.nativeType))) := by
  obtain ⟨pre, y, post, he, hpre, hy⟩ := exists_first_rejected entries hbad
  have hye : rowError y.row =
      some (GoError.errorsNew ("cannot convert spanner type: " ++ y.nativeType)) := by
    rw [rowError_entry, typeName_error_eq y.nativeType hy]
  have hs : c columnsSQL =
      (pre.map CatalogEntry.row).map Except.ok ++
        (Except.ok y.row :: post.map (fun x => Except.ok x.row)) := by
    rw [hstream, he]
    simp [List.map_append]
  have hpre2 : ∀ r ∈ pre.map CatalogEntry.row, rowError r = none := by
    intro r hr
    obtain ⟨z, hz, rfl⟩ := List.mem_map.1 hr
    rw [rowError_entry]
    exact hpre z hz
  have h := createAllSchemaMap_of_scan_error c ro _
    (scanLoop_of_rows_then c _ _ _ hs hpre2 (fun m => scanLoop_fail y.row _ m _ hye))
  exact ⟨pre, y, post, he, hpre, hy, h,
    fun name => getSchema_of_discovery_error c ro ro2 name _ h⟩

/-- Witness of C19: table `U` has a `JSON` column, and the lookup of table
`T`, whose own column is recognised, fails with the mapping error. -/
theorem getSchema_fails_on_unrecognised_type_witness :
    GetSchema jsonClient insertionOrder reverseOrder "T" =
      (none, some (GoError.errorsNew "cannot convert spanner type: JSON")) ∧
    ∃ pre y post, jsonEntries = pre ++ y :: post ∧
      (∀ z ∈ pre, (spannerTypeNameToColumnType z.nativeType).2 = none) ∧
      (spannerTypeNameToColumnType y.nativeType).2 ≠ none ∧
      createAllSchemaMap jsonClient insertionOrder =
        (none, some (GoError.errorsNew ("cannot convert spanner type: " ++ y.nativeType))) ∧
      ∀ name, GetSchema jsonClient insertionOrder reverseOrder name =
        (none, some (GoError.errorsNew ("cannot convert spanner type: " ++ y.nativeType))) :=
  ⟨by decide,
    getSchema_fails_on_unrecognised_type jsonClient insertionOrder reverseOrder jsonEntries rfl
      ⟨⟨"U", "doc", 1, "JSON", "YES"⟩, by decide, by decide⟩⟩

end TamateSpanner
